import Mathlib

/-!
Verification development for the PR-card module (`prs.js`) of the
github-readme-stats-action repository.

The JavaScript source is embedded shallowly:

* JS strings are Lean `String`s; single-character-regex `String.replace`
  becomes a character-wise substitution; `String.split` on a one-character
  separator, `trim`, and `toLowerCase` are modelled for ASCII inputs
  (the repository only ever feeds them ASCII identifiers).
* A possibly-`undefined` JS string is `Option String`; JS truthiness of a
  string (`v || d`, `if (v)`) treats both `undefined` and `""` as falsy,
  and interpolating `undefined` into a template literal yields the text
  `"undefined"` — both behaviours are modelled explicitly below.
* `async` functions that only consult the network through `fetch` are
  modelled as pure functions over an explicit oracle: the paginated
  GraphQL fetch in `fetchUserPRs` receives the list of page responses the
  endpoint would serve in order, and the image fetches in `renderOrgCard`
  receive a map from URL to the optional data URI a successful fetch
  would produce (`none` models a non-ok response / thrown fetch failure).
* JS `Map` (insertion ordered) is an association list extended at the
  tail on first insertion and updated in place otherwise.
-/

namespace Prs

/-- The 26 ASCII upper-to-lower pairs. -/
def lowerTable : List (Char × Char) :=
  [('A', 'a'), ('B', 'b'), ('C', 'c'), ('D', 'd'), ('E', 'e'), ('F', 'f'),
   ('G', 'g'), ('H', 'h'), ('I', 'i'), ('J', 'j'), ('K', 'k'), ('L', 'l'),
   ('M', 'm'), ('N', 'n'), ('O', 'o'), ('P', 'p'), ('Q', 'q'), ('R', 'r'),
   ('S', 's'), ('T', 't'), ('U', 'u'), ('V', 'v'), ('W', 'w'), ('X', 'x'),
   ('Y', 'y'), ('Z', 'z')]

/-- ASCII model of `Char` lower-casing as performed by
`String.prototype.toLowerCase` (the repository only lower-cases ASCII
repository identifiers and exclude-list entries). -/
def jsLowerChar (c : Char) : Char :=
  (lowerTable.lookup c).getD c

/-- Model of `s.toLowerCase()` (ASCII fragment). -/
def jsToLower (s : String) : String :=
  ⟨s.data.map jsLowerChar⟩

/-- Whitespace recognised by the model of `String.prototype.trim`
(ASCII fragment of the ECMAScript white-space set). -/
def jsIsSpace (c : Char) : Bool :=
  c = ' ' || c = '\t' || c = '\n' || c = '\r' || c = '\x0b' || c = '\x0c'

/-- Model of `s.trim()` : drop leading and trailing whitespace. -/
def jsTrim (s : String) : String :=
  ⟨((s.data.dropWhile (jsIsSpace ·)).reverse.dropWhile (jsIsSpace ·)).reverse⟩

/-- Executable infix test on character lists. -/
def listInfixOf (l₁ : List Char) : List Char → Bool
  | [] => l₁.isEmpty
  | c :: t => l₁.isPrefixOf (c :: t) || listInfixOf l₁ t

/-- Model of `hay.includes(needle)` on strings. -/
def jsIncludes (hay needle : String) : Bool :=
  listInfixOf needle.data hay.data

/-- Model of `s.split(sep)` for a one-character separator: JS returns
`[""]` on the empty string and keeps empty fields
(`",".split(",") = ["", ""]`). -/
def splitChar (sep : Char) : List Char → List (List Char)
  | [] => [[]]
  | c :: cs =>
    if c = sep then [] :: splitChar sep cs
    else
      match splitChar sep cs with
      | g :: gs => (c :: g) :: gs
      | [] => [[c]]

/-- Model of `value.split(",")`. -/
def jsSplitComma (s : String) : List String :=
  (splitChar ',' s.data).map (fun cs => ⟨cs⟩)

/-- Model of `xs.join(",")` (`Array.prototype.join`). -/
def joinComma : List String → String
  | [] => ""
  | x :: xs => xs.foldl (fun acc e => acc ++ "," ++ e) x

/-- JS string truthiness: `x || d` where `x` is a string or `undefined`. -/
def jsOr (x : Option String) (d : String) : String :=
  match x with
  | some s => if s = "" then d else s
  | none => d

/-- JS `x || y` on two possibly-undefined strings, keeping the result
optional (used for `base.field || fallback.field`). -/
def jsOrOpt (x y : Option String) : Option String :=
  match x with
  | some s => if s = "" then y else some s
  | none => y

/-- Interpolating a possibly-`undefined` string into a template literal:
`undefined` prints as the text `undefined`. -/
def jsShow (x : Option String) : String :=
  match x with
  | some s => s
  | none => "undefined"

/-! ### Exclusion filter (`parseExcludeList`, `shouldExcludeRepo`) -/

/-- One exclude entry normalisation: `entry.trim().toLowerCase()`. -/
def normalizeEntry (e : String) : String :=
  jsToLower (jsTrim e)

/-- `parseExcludeList` from the source:
`if (!value) return []; return value.split(",").map(e => e.trim().toLowerCase()).filter(Boolean);` -/
def parseExcludeList (value : String) : List String :=
  if value = "" then []
  else ((jsSplitComma value).map normalizeEntry).filter (fun e => e ≠ "")

/-- `shouldExcludeRepo` from the source: case-insensitive substring match
of any entry against the repository identifier. -/
def shouldExcludeRepo (repoName : String) (excludeList : List String) : Bool :=
  if excludeList.isEmpty then false
  else excludeList.any (fun entry => jsIncludes (jsToLower repoName) entry)

/-! ### `escapeXml` -/

/-- Character-wise model of `s.replace(/c/g, r)` for a single-character
pattern `c` with a plain replacement string `r`. -/
def replaceChar (c : Char) (r : String) (s : String) : String :=
  ⟨s.data.flatMap (fun x => if x = c then r.data else [x])⟩

/-- The apostrophe character (U+0027). -/
def aposChar : Char := Char.ofNat 39

/-- `escapeXml` from the source: the five chained global replaces, in
source order (`&`, `<`, `>`, `"`, then the apostrophe). -/
def escapeXml (s : String) : String :=
  replaceChar aposChar "&#39;"
    (replaceChar '"' "&quot;"
      (replaceChar '>' "&gt;"
        (replaceChar '<' "&lt;"
          (replaceChar '&' "&amp;" s))))

/-- The five XML-special characters. -/
def xmlSpecials : List Char := ['&', '<', '>', '"', aposChar]

/-- Entity for one character: specification-side description of what a
single simultaneous pass would substitute for each character. -/
def xmlEntity (c : Char) : List Char :=
  if c = '&' then "&amp;".data
  else if c = '<' then "&lt;".data
  else if c = '>' then "&gt;".data
  else if c = '"' then "&quot;".data
  else if c = aposChar then "&#39;".data
  else [c]

/-- Specification-side simultaneous escape: substitute every character
independently. Comparing `escapeXml` with this captures the claim that
the chained replaces amount to exactly the five substitutions and no
other transformation. -/
def escapeXmlSpec (s : String) : String :=
  ⟨s.data.flatMap xmlEntity⟩

/-! ### Repository helpers (`getRepoShortName`, `resolveOrgDisplayName`,
`languageIconUrl`, `languageColor`) -/

/-- `getRepoShortName` from the source:
`if (!repoName) return ""; const parts = repoName.split("/"); return parts[parts.length-1] || repoName;` -/
def getRepoShortName (repoName : String) : String :=
  if repoName = "" then ""
  else
    let parts := (splitChar '/' repoName.data).map (fun cs => (⟨cs⟩ : String))
    match parts.getLast? with
    | some s => if s = "" then repoName else s
    | none => repoName

/-- `resolveOrgDisplayName` from the source. -/
def resolveOrgDisplayName (ownerType orgDisplayName repoName : String) : String :=
  if ownerType = "Organization" then orgDisplayName
  else
    let repoShortName := getRepoShortName repoName
    if repoShortName = "" then orgDisplayName else repoShortName

/-- The `LANG_ICON_SLUGS` table from the source (JS object literal,
modelled as an association list in declaration order; keys are
distinct). -/
def LANG_ICON_SLUGS : List (String × String) :=
  [ ("JavaScript", "javascript/javascript-original")
  , ("TypeScript", "typescript/typescript-original")
  , ("Python", "python/python-original")
  , ("Java", "java/java-original")
  , ("C#", "csharp/csharp-original")
  , ("C++", "cplusplus/cplusplus-original")
  , ("C", "c/c-original")
  , ("Go", "go/go-original")
  , ("Rust", "rust/rust-original")
  , ("Ruby", "ruby/ruby-original")
  , ("PHP", "php/php-original")
  , ("Swift", "swift/swift-original")
  , ("Kotlin", "kotlin/kotlin-original")
  , ("Scala", "scala/scala-original")
  , ("Dart", "dart/dart-original")
  , ("Lua", "lua/lua-original")
  , ("R", "r/r-original")
  , ("Perl", "perl/perl-original")
  , ("Haskell", "haskell/haskell-original")
  , ("Elixir", "elixir/elixir-original")
  , ("Clojure", "clojure/clojure-original")
  , ("Shell", "bash/bash-original")
  , ("HTML", "html5/html5-original")
  , ("CSS", "css3/css3-original")
  , ("Vue", "vuejs/vuejs-original")
  , ("Svelte", "svelte/svelte-original")
  , ("Objective_C", "objectivec/objectivec-plain")
  , ("Objective-C", "objectivec/objectivec-plain")
  , ("Jupyter_Notebook", "jupyter/jupyter-original")
  , ("Jupyter Notebook", "jupyter/jupyter-original") ]

/-- `languageIconUrl` from the source: `none` models the JS `null`
returned for a language without a slug (a falsy slug lookup). -/
def languageIconUrl (language : String) : Option String :=
  match LANG_ICON_SLUGS.lookup language with
  | some slug =>
      some ("https://cdn.jsdelivr.net/gh/devicons/devicon@latest/icons/" ++ slug ++ ".svg")
  | none => none

/-- `languageColor` from the source:
`(language, colorMap) => colorMap[language] || "#586069"`. -/
def languageColor (language : String) (colorMap : List (String × String)) : String :=
  match colorMap.lookup language with
  | some c => if c = "" then "#586069" else c
  | none => "#586069"

/-! ### GraphQL response shape

`fetchUserPRs` only reads the fields below from each page; a page is one
parsed JSON response of the search query. `ownerName` is `none` when the
response carries no `owner.name` (the query only requests it for
organisations); `primaryLanguage` is `none` when `primaryLanguage` is
`null`. `errors` is `some payload` when the response body has a truthy
top-level `errors` value (`payload` standing for its serialisation). -/

structure Repository where
  nameWithOwner : String
  isFork : Bool
  ownerTypename : Option String
  ownerLogin : String
  ownerAvatarUrl : String
  ownerName : Option String
  stargazerCount : Nat
  primaryLanguage : Option String
  deriving DecidableEq, Repr

structure SearchNode where
  repository : Option Repository
  deriving DecidableEq, Repr

structure Page where
  ok : Bool
  status : Nat
  statusText : String
  errors : Option String
  nodes : List SearchNode
  hasNextPage : Bool
  deriving DecidableEq, Repr

/-- Per-repository counters inside an owner accumulator. -/
structure RepoInfo where
  stars : Nat
  prs : Nat
  language : String
  deriving DecidableEq, Repr

/-- One owner accumulator (`orgMap` value in the source). The `repos`
association list mirrors the insertion-ordered JS `Map`. -/
structure OrgEntry where
  org : String
  orgDisplayName : String
  avatarUrl : String
  ownerType : String
  repos : List (String × RepoInfo)
  deriving DecidableEq, Repr

/-- The insertion-ordered owner map. -/
abbrev OrgMap := List (String × OrgEntry)

/-- The aggregation output unit. `stars` is optional only because a JS
consumer may hand the renderer an object whose `stars` field is
`undefined`; `fetchUserPRs` itself always produces `some`. -/
structure OrgPRData where
  org : String
  orgDisplayName : String
  avatarUrl : String
  repo : String
  stars : Option Nat
  mergedPRs : Nat
  language : String
  deriving DecidableEq, Repr

/-- Update the value stored at `k`, preserving position (JS
`Map.prototype.set` on an existing key). -/
def updateAssoc {β : Type} (k : String) (f : β → β) : List (String × β) → List (String × β)
  | [] => []
  | (k', v) :: rest =>
    if k' = k then (k', f v) :: rest else (k', v) :: updateAssoc k f rest

/-- The body of the `for (const node of search.nodes)` loop in
`fetchUserPRs`: skip rules, accumulator creation, per-repo seeding and
increment. `excl` is the already-normalised exclude list. -/
def processNode (username : String) (excl : List String) (m : OrgMap)
    (node : SearchNode) : OrgMap :=
  match node.repository with
  | none => m
  | some repo =>
    let ownerLogin := repo.ownerLogin
    let repoName := repo.nameWithOwner
    let ownerType := jsOr repo.ownerTypename "User"
    if ownerLogin = username ∧ repo.isFork then m
    else if shouldExcludeRepo repoName excl then m
    else
      let m :=
        if (m.lookup ownerLogin).isSome then m
        else m ++ [(ownerLogin,
          { org := ownerLogin
            orgDisplayName := jsOr repo.ownerName ownerLogin
            avatarUrl := repo.ownerAvatarUrl
            ownerType := ownerType
            repos := [] })]
      updateAssoc ownerLogin (fun e =>
        let repos :=
          if (e.repos.lookup repoName).isSome then e.repos
          else e.repos ++ [(repoName,
            { stars := repo.stargazerCount
              prs := 0
              language := jsOr repo.primaryLanguage "" })]
        { e with repos := updateAssoc repoName (fun r => { r with prs := r.prs + 1 }) repos })
        m

/-- Data of the `mainRepo` local in the finalisation loop. -/
structure MainRepo where
  name : String
  stars : Nat
  language : String
  deriving DecidableEq, Repr

/-- The per-owner finalisation loop:
`let mainRepo = {name:"", stars:0, language:""}; let totalPRs = 0;`
then for each repo `totalPRs += prs` and replace `mainRepo` whenever the
repo's stars are strictly greater. -/
def pickMainRepo (repos : List (String × RepoInfo)) : MainRepo × Nat :=
  repos.foldl
    (fun acc p =>
      let total := acc.2 + p.2.prs
      if p.2.stars > acc.1.stars then
        ({ name := p.1, stars := p.2.stars, language := p.2.language }, total)
      else (acc.1, total))
    ({ name := "", stars := 0, language := "" }, 0)

/-- Finalise one owner accumulator into an `OrgPRData`. -/
def finalizeEntry (e : OrgEntry) : OrgPRData :=
  let picked := pickMainRepo e.repos
  { org := e.org
    orgDisplayName := resolveOrgDisplayName e.ownerType e.orgDisplayName picked.1.name
    avatarUrl := e.avatarUrl
    repo := picked.1.name
    stars := some picked.1.stars
    mergedPRs := picked.2
    language := picked.1.language }

/-- Stable insertion into a list already sorted descending by
`mergedPRs`; an element coming from earlier in the input goes before
every equal key. Together with `sortByMergedDesc` this realises the
(unique) output of the stable `result.sort((a, b) => b.mergedPRs - a.mergedPRs)`. -/
def insertByMerged (x : OrgPRData) : List OrgPRData → List OrgPRData
  | [] => [x]
  | y :: ys =>
    if x.mergedPRs ≥ y.mergedPRs then x :: y :: ys
    else y :: insertByMerged x ys

/-- Stable sort, descending by `mergedPRs`. -/
def sortByMergedDesc : List OrgPRData → List OrgPRData
  | [] => []
  | x :: xs => insertByMerged x (sortByMergedDesc xs)

/-- The normalisation `fetchUserPRs` applies to its own exclude-list
argument: `excludeList.map(e => e.trim().toLowerCase()).filter(Boolean)`. -/
def normExclude (excludeList : List String) : List String :=
  (excludeList.map normalizeEntry).filter (fun e => e ≠ "")

/-- The paginated fetch loop of `fetchUserPRs`, processing the responses
the endpoint serves in order. A non-ok HTTP response or a truthy
`errors` value aborts with the thrown message; otherwise the page's
nodes are folded into the accumulator and the loop continues exactly
when `pageInfo.hasNextPage` is set. An exhausted response list models
the endpoint reporting no further pages. -/
def processPages (username : String) (excl : List String) :
    List Page → OrgMap → Except String OrgMap
  | [], m => .ok m
  | p :: ps, m =>
    if ¬p.ok then
      .error ("GitHub API error: " ++ toString p.status ++ " " ++ p.statusText)
    else
      match p.errors with
      | some payload => .error ("GitHub GraphQL errors: " ++ payload)
      | none =>
        let m := p.nodes.foldl (processNode username excl) m
        if p.hasNextPage then processPages username excl ps m else .ok m

/-- `fetchUserPRs` over the page oracle: normalise the exclude list,
run the paginated accumulation, finalise each owner and sort. The
`token` only feeds the request headers and cannot influence the result
beyond the pages the oracle serves. -/
def fetchUserPRs (username : String) (_token : String)
    (excludeList : List String) (pages : List Page) :
    Except String (List OrgPRData) :=
  let normalizedExclude := normExclude excludeList
  match processPages username normalizedExclude pages [] with
  | .error e => .error e
  | .ok m => .ok (sortByMergedDesc (m.map (fun p => finalizeEntry p.2)))

/-! ### Theme resolver (`resolveColors`) -/

/-- One named theme: up to five bare-hex colour fields (stored without a
`#` prefix, exactly as in the upstream theme table). -/
structure ThemeDef where
  title_color : Option String := none
  icon_color : Option String := none
  text_color : Option String := none
  bg_color : Option String := none
  border_color : Option String := none
  deriving DecidableEq, Repr

/-- A fully resolved colour set. -/
structure ColorSet where
  titleColor : String
  textColor : String
  iconColor : String
  bgColor : String
  borderColor : String
  deriving DecidableEq, Repr

/-- The user-supplied render options consumed by `resolveColors` /
`renderOrgCard` (each field a string or `undefined`, as delivered by the
entrypoint layer). -/
structure RenderOptions where
  theme : Option String := none
  title_color : Option String := none
  text_color : Option String := none
  icon_color : Option String := none
  bg_color : Option String := none
  border_color : Option String := none
  border_radius : Option String := none
  hide_border : Option String := none
  deriving DecidableEq, Repr

/-- Hex digit test, matching the character class `[A-Fa-f0-9]`. -/
def isHexColorDigit (c : Char) : Bool :=
  ('0' ≤ c && c ≤ '9') || ('a' ≤ c && c ≤ 'f') || ('A' ≤ c && c ≤ 'F')

/-- The anchored pattern `/^([A-Fa-f0-9]{3,8})$/` of the source: three to
eight bare hex digits, nothing else (in particular no `#` prefix). -/
def matchesHexColor (s : String) : Bool :=
  3 ≤ s.length && s.length ≤ 8 && s.data.all isHexColorDigit

/-- The `hex` helper inside `resolveColors`:
`(v, fb) => { if (v && /^([A-Fa-f0-9]{3,8})$/.test(v)) return "#"+v; return fb; }`. -/
def hexOverride (v : Option String) (fb : String) : String :=
  match v with
  | some s => if s ≠ "" ∧ matchesHexColor s then "#" ++ s else fb
  | none => fb

/-- `resolveColors` generalised over the imported theme table (the source
closes over the `themes` object of the upstream library; the table is
external data, so theorems quantify over it). If the table lacked a
`"default"` entry the JS code would throw on property access; the model
substitutes an empty theme there, and every theorem below assumes a
complete default entry, which the real table has. -/
def resolveColorsWith (themes : List (String × ThemeDef)) (options : RenderOptions) : ColorSet :=
  let themeName := jsOr options.theme "default"
  let fallback := (themes.lookup "default").getD {}
  let base := (themes.lookup themeName).getD fallback
  { titleColor :=
      hexOverride options.title_color ("#" ++ jsShow (jsOrOpt base.title_color fallback.title_color))
    textColor :=
      hexOverride options.text_color ("#" ++ jsShow (jsOrOpt base.text_color fallback.text_color))
    iconColor :=
      hexOverride options.icon_color ("#" ++ jsShow (jsOrOpt base.icon_color fallback.icon_color))
    bgColor :=
      hexOverride options.bg_color ("#" ++ jsShow (jsOrOpt base.bg_color fallback.bg_color))
    borderColor :=
      hexOverride options.border_color ("#" ++ jsShow (jsOrOpt base.border_color fallback.border_color)) }

/-- Modelled from the spec: the theme table is supplied by the external
upstream library (`github-readme-stats/themes`), not by this repository.
Only the two entries exercised by the repository's tests are included,
with the field values those tests pin down (`default` is complete; `dark`
omits `border_color`). Unknown names are absent, as required by the
fallback rule of spec §4.3. -/
def themesTable : List (String × ThemeDef) :=
  [ ("default",
      { title_color := some "2f80ed"
        icon_color := some "4c71f2"
        text_color := some "434d58"
        bg_color := some "fffefe"
        border_color := some "e4e2e2" })
  , ("dark",
      { title_color := some "fff"
        icon_color := some "79ff97"
        text_color := some "9f9f9f"
        bg_color := some "151515" }) ]

/-- `resolveColors` from the source: the generic resolver applied to the
imported theme table. -/
def resolveColors (options : RenderOptions) : ColorSet :=
  resolveColorsWith themesTable options

/-! ### Card renderer (`renderOrgCard`) -/

/-- Model of `(n / 1000).toFixed(1)` for a natural star count: round the
number of tenths half-up. This is exact for every count that is a
multiple of 100 (such as the 65000 of the tests); at representation-
sensitive ties (`n ≡ 50 mod 100`) IEEE-754 may round either way, which
no claim depends on. -/
def jsToFixed1of1000 (n : Nat) : String :=
  let t := (n + 50) / 100
  toString (t / 10) ++ "." ++ toString (t % 10)

/-- The `formatCount` helper inside `renderOrgCard`:
`(n) => { if (n >= 1000) return (n/1000).toFixed(1) + "k"; return String(n); }`.
An `undefined` count fails the comparison and stringifies to the text
`undefined`. -/
def formatCount (stars : Option Nat) : String :=
  match stars with
  | some n => if n ≥ 1000 then jsToFixed1of1000 n ++ "k" else toString n
  | none => "undefined"

/-- The `starIcon` template literal (a fixed string). -/
def starIconSvg : String :=
  "<svg viewBox=\"0 0 16 16\" width=\"16\" height=\"16\" fill=\"#f1e05a\">\n    <path d=\"M8 .25a.75.75 0 0 1 .673.418l1.882 3.815 4.21.612a.75.75 0 0 1 .416 1.279l-3.046 2.97.719 4.192a.75.75 0 0 1-1.088.791L8 12.347l-3.766 1.98a.75.75 0 0 1-1.088-.79l.72-4.194L.818 6.374a.75.75 0 0 1 .416-1.28l4.21-.611L7.327.668A.75.75 0 0 1 8 .25z\"/>\n  </svg>"

/-- The `mergedIcon` template literal (a fixed string). -/
def mergedIconSvg : String :=
  "<svg viewBox=\"0 0 16 16\" width=\"16\" height=\"16\" fill=\"#8957e5\">\n    <path d=\"M5.45 5.154A4.25 4.25 0 0 0 9.25 7.5h1.378a2.251 2.251 0 1 1 0 1.5H9.25A5.734 5.734 0 0 1 5 7.123v3.505a2.25 2.25 0 1 1-1.5 0V5.372a2.25 2.25 0 1 1 1.95-.218ZM4.25 13.5a.75.75 0 1 0 0-1.5.75.75 0 0 0 0 1.5Zm8.5-4.5a.75.75 0 1 0 0-1.5.75.75 0 0 0 0 1.5ZM5 3.25a.75.75 0 1 0 0 .005V3.25Z\"/>\n  </svg>"

/-- Literal pieces of the `avatarImage` fragment. -/
def avL0 : String := "<defs>\n        <clipPath id=\"avatar-clip-"

def avL1 : String :=
  "\">\n          <rect x=\"20\" y=\"20\" width=\"60\" height=\"60\" rx=\"8\"/>\n        </clipPath>\n      </defs>\n      <rect x=\"20\" y=\"20\" width=\"60\" height=\"60\" rx=\"8\" fill=\"#fff\"/>\n      <image x=\"20\" y=\"20\" width=\"60\" height=\"60\"\n             href=\""

def avL2 : String := "\" clip-path=\"url(#avatar-clip-"

def avL3 : String := ")\"/>"

/-- The `avatarImage` fragment: omitted entirely when the avatar data URI
is empty (fetch failure), else the clipped image block with
`clipId = "avatar-clip-" + data.org` (`avatarSize = 60`). -/
def avatarImageSvg (org avatarDataUri : String) : String :=
  if avatarDataUri ≠ "" then
    avL0 ++ org ++ avL1 ++ avatarDataUri ++ avL2 ++ org ++ avL3
  else ""

/-- Literal pieces of the icon branch of `langIconSvg`. -/
def liL0 : String := "<image x=\"345\" y=\"23\" width=\"16\" height=\"16\" href=\""

def liL1 : String := "\"/>\n         <text x=\"365\" y=\"36\" class=\"lang\">"

def liL2 : String := "</text>"

/-- Literal pieces of the coloured-dot branch of `langIconSvg`. -/
def ldL0 : String := "<circle cx=\"350\" cy=\"32\" r=\"6\" fill=\""

def ldL1 : String := "\"/>\n           <text x=\"362\" y=\"36\" class=\"lang\">"

def ldL2 : String := "</text>"

/-- The `langIconSvg` fragment: icon image plus label when the icon data
URI is present (and the language non-empty); a coloured dot plus label
for a non-empty language otherwise; empty for an absent language
(`width - 105 = 345`, `width - 85 = 365`, `width - 100 = 350`,
`width - 88 = 362`). -/
def langElementSvg (language langIconDataUri langColor : String) : String :=
  if langIconDataUri ≠ "" ∧ language ≠ "" then
    liL0 ++ langIconDataUri ++ liL1 ++ escapeXml language ++ liL2
  else if language ≠ "" then
    ldL0 ++ langColor ++ ldL1 ++ escapeXml language ++ ldL2
  else ""

/-- Template pieces of the outer SVG literal, in order. The constant
interpolations of the source are folded in
(`width = 450`, `height = 100`, `width-1 = 449`, `height-1 = 99`,
`textX = 95`). A literal `\x7b`/`\x7d` is a CSS brace, `\x27` a single
quote in the font list. -/
def svgL0 : String :=
  "<svg\n  width=\"450\" height=\"100\"\n  viewBox=\"0 0 450 100\"\n  fill=\"none\"\n  xmlns=\"http://www.w3.org/2000/svg\"\n  role=\"img\"\n  aria-labelledby=\"title-"

def svgL1 : String := "\"\n>\n  <title id=\"title-"

def svgL2 : String := "\">"

def svgL3 : String :=
  " PR Card</title>\n  <style>\n    .org-name \x7b\n      font: 600 16px \x27Segoe UI\x27, Ubuntu, Sans-Serif;\n      fill: "

def svgL4 : String :=
  ";\n    \x7d\n    .stat \x7b\n      font: 400 13px \x27Segoe UI\x27, Ubuntu, Sans-Serif;\n      fill: "

def svgL5 : String :=
  ";\n    \x7d\n    .lang \x7b\n      font: 400 13px \x27Segoe UI\x27, Ubuntu, Sans-Serif;\n      fill: "

def svgL6 : String :=
  ";\n    \x7d\n  </style>\n  <rect\n    x=\"0.5\" y=\"0.5\"\n    "

def svgL7 : String := "\n    width=\"449\" height=\"99\"\n    fill=\""

def svgL8 : String := "\"\n    stroke=\""

def svgL9 : String := "\"\n    "

def svgL10 : String := "\n  />\n  "

def svgL11 : String := "\n  <text x=\"95\" y=\"42\" class=\"org-name\">"

def svgL12 : String := "</text>\n  "

def svgL13 : String :=
  "\n  <g transform=\"translate(95, 58)\">\n    <g transform=\"translate(0, 0)\">\n      "

def svgL14 : String := "\n      <text x=\"20\" y=\"13\" class=\"stat\""

def svgL15 : String :=
  "\n    </g>\n    <g transform=\"translate(80, 0)\">\n      "

def svgL16 : String := "\n      <text x=\"20\" y=\"13\" class=\"stat\""

def svgL17 : String := "\n    </g>\n  </g>\n</svg>"

/-- The outer SVG template literal of `renderOrgCard`, assembled from the
pieces above. The grouping of the `++` chain is chosen so that the
attribute and stat fragments the theorems speak about occur as explicit
segments; the resulting string is character-for-character the source
template. -/
def svgTemplate (org displayName titleColor textColor bgColor borderColor
    borderRadius : String) (hideBorder : Bool)
    (avatarImage langIconSvg : String) (stars : Option Nat) (merged : Nat) : String :=
  let rxTok := "rx=\"" ++ borderRadius ++ "\""
  let strokeTok := "stroke-opacity=\"" ++ (if hideBorder then "0" else "1") ++ "\""
  let starTok := ">" ++ formatCount stars ++ "</text>"
  let mergedTok := ">" ++ toString merged ++ " merged</text>"
  svgL0 ++ org ++ svgL1 ++ org ++ svgL2 ++ escapeXml displayName ++
    svgL3 ++ titleColor ++ svgL4 ++ textColor ++ svgL5 ++ textColor ++
    svgL6 ++ rxTok ++ svgL7 ++ bgColor ++ svgL8 ++ borderColor ++
    svgL9 ++ strokeTok ++ svgL10 ++ avatarImage ++ svgL11 ++ escapeXml displayName ++
    svgL12 ++ langIconSvg ++ svgL13 ++ starIconSvg ++ svgL14 ++ starTok ++
    svgL15 ++ mergedIconSvg ++ svgL16 ++ mergedTok ++ svgL17

/-- The language-icon data URI produced by the icon block of
`renderOrgCard`: empty when no icon URL exists for the language, and
empty when the fetch of that URL fails (the caught exception leaves the
initial `""`). -/
def langIconUriOf (language : String) (fetchRes : String → Option String) : String :=
  match languageIconUrl language with
  | some url => (fetchRes url).getD ""
  | none => ""

/-- `renderOrgCard` over the fetch oracle: resolve colours, attempt the
avatar and language-icon fetches (a failed fetch degrades to the empty
data URI), and assemble the SVG. Always returns a string — no failure
path escapes. -/
def renderOrgCard (data : OrgPRData) (options : RenderOptions)
    (languageColors : List (String × String)) (fetchRes : String → Option String) : String :=
  let colors := resolveColors options
  let borderRadius := jsOr options.border_radius "4.5"
  let hideBorder := options.hide_border == some "true"
  let avatarDataUri := (fetchRes (data.avatarUrl ++ "?s=120")).getD ""
  let langIconDataUri := langIconUriOf data.language fetchRes
  let langColor := languageColor data.language languageColors
  svgTemplate data.org data.orgDisplayName colors.titleColor colors.textColor
    colors.bgColor colors.borderColor borderRadius hideBorder
    (avatarImageSvg data.org avatarDataUri)
    (langElementSvg data.language langIconDataUri langColor)
    data.stars data.mergedPRs

/-- Everything of the SVG template strictly before the `avatarImage`
interpolation (a function of the already-resolved render inputs only;
independent of the fetch oracle). -/
def svgBeforeAvatar (org displayName titleColor textColor bgColor borderColor
    borderRadius : String) (hideBorder : Bool) : String :=
  svgL0 ++ org ++ svgL1 ++ org ++ svgL2 ++ escapeXml displayName ++
    svgL3 ++ titleColor ++ svgL4 ++ textColor ++ svgL5 ++ textColor ++
    svgL6 ++ ("rx=\"" ++ borderRadius ++ "\"") ++ svgL7 ++ bgColor ++ svgL8 ++ borderColor ++
    svgL9 ++ ("stroke-opacity=\"" ++ (if hideBorder then "0" else "1") ++ "\"") ++ svgL10

/-- The template text between the `avatarImage` and `langIconSvg`
interpolations. -/
def svgBetweenAvatarLang (displayName : String) : String :=
  svgL11 ++ escapeXml displayName ++ svgL12

/-- The template text after the `langIconSvg` interpolation (star and
merged counters included). -/
def svgAfterLang (stars : Option Nat) (merged : Nat) : String :=
  svgL13 ++ starIconSvg ++ svgL14 ++ (">" ++ formatCount stars ++ "</text>") ++
    svgL15 ++ mergedIconSvg ++ svgL16 ++ (">" ++ toString merged ++ " merged</text>") ++ svgL17

/-! ### Statement-side auxiliaries -/

/-- The merged count currently recorded for `owner/repoName` in the
accumulator (0 when absent). -/
def repoPRCount (m : OrgMap) (owner repoName : String) : Nat :=
  match m.lookup owner with
  | none => 0
  | some e =>
    match e.repos.lookup repoName with
    | none => 0
    | some r => r.prs

/-- No per-repo record exists yet for `owner/repoName`. -/
def repoAbsent (m : OrgMap) (owner repoName : String) : Prop :=
  ∀ e, m.lookup owner = some e → e.repos.lookup repoName = none

/-- A search item qualifies for `owner/repoName` under user `username`
and normalised exclude list `excl`: it carries repository information
for exactly that repository and hits none of the skip rules. -/
def qualifies (username : String) (excl : List String)
    (owner repoName : String) (node : SearchNode) : Bool :=
  match node.repository with
  | none => false
  | some repo =>
    (repo.ownerLogin == owner) && (repo.nameWithOwner == repoName) &&
      !((repo.ownerLogin == username) && repo.isFork) &&
      !(shouldExcludeRepo repo.nameWithOwner excl)

/-- The main-repository selection part of the finalisation loop in
isolation (same scan as `pickMainRepo`, tracking only the champion). -/
def selMain (acc : MainRepo) : List (String × RepoInfo) → MainRepo
  | [] => acc
  | p :: ps =>
    selMain (if p.2.stars > acc.stars then ⟨p.1, p.2.stars, p.2.language⟩ else acc) ps

/-- Sum of per-repository merged counts of an accumulator. -/
def sumPrs (repos : List (String × RepoInfo)) : Nat :=
  (repos.map (fun p => p.2.prs)).sum

/-- A page response that makes the aggregation throw: non-success HTTP
status, or a truthy GraphQL `errors` value. -/
def pageBad (p : Page) : Bool :=
  !p.ok || p.errors.isSome

/-- Whether the paginated loop, served these responses in order, reaches
a bad page before the endpoint reports the final page. -/
def reachesBadPage : List Page → Bool
  | [] => false
  | p :: ps => if pageBad p then true else if p.hasNextPage then reachesBadPage ps else false

/-- First character exists and does not occur in the token `p`. -/
def headSafeB (p : List Char) : List Char → Bool
  | [] => false
  | c :: _ => !(decide (c ∈ p))

/-- Last character exists and does not occur in the token `p`. -/
def lastSafeB (p : List Char) (l : List Char) : Bool :=
  match l.getLast? with
  | some c => !(decide (c ∈ p))
  | none => false

/-- An alternating literal/value concatenation: a head string followed by
(value, literal) pairs. -/
def chainData (head : List Char) : List (List Char × List Char) → List Char
  | [] => head
  | q :: rest => head ++ (q.1 ++ chainData q.2 rest)

/-- The character list of the forbidden substring `undefined`. -/
def undTok : List Char := "undefined".data

/-- The string `s` contains the string `t` as a contiguous substring. -/
def strContains (s t : String) : Prop := t.data <:+: s.data

instance (s t : String) : Decidable (strContains s t) :=
  inferInstanceAs (Decidable (t.data <:+: s.data))

/-- The string is free of the literal substring `undefined`. -/
def noUndef (s : String) : Prop := ¬ undTok <:+: s.data

instance (s : String) : Decidable (noUndef s) :=
  inferInstanceAs (Decidable (¬ undTok <:+: s.data))

/-- Digit characters, as produced by `Nat.toString`. -/
def digitChars : List Char := "0123456789".data

/-! ### Concrete inputs used by claim-level examples and witnesses -/

/-- The three-item page of the repository's `fetchUserPRs` test: two
merged PRs on the non-fork `octo/hello-world` and one on the self-owned
fork `octo/forked`. -/
def pageC1 : Page :=
  { ok := true, status := 200, statusText := "OK", errors := none,
    nodes :=
      [ ⟨some { nameWithOwner := "octo/hello-world", isFork := false,
                ownerTypename := some "User", ownerLogin := "octo",
                ownerAvatarUrl := "https://avatars.githubusercontent.com/u/1",
                ownerName := some "Octo", stargazerCount := 120,
                primaryLanguage := some "JavaScript" }⟩
      , ⟨some { nameWithOwner := "octo/hello-world", isFork := false,
                ownerTypename := some "User", ownerLogin := "octo",
                ownerAvatarUrl := "https://avatars.githubusercontent.com/u/1",
                ownerName := some "Octo", stargazerCount := 120,
                primaryLanguage := some "JavaScript" }⟩
      , ⟨some { nameWithOwner := "octo/forked", isFork := true,
                ownerTypename := some "User", ownerLogin := "octo",
                ownerAvatarUrl := "https://avatars.githubusercontent.com/u/1",
                ownerName := some "Octo", stargazerCount := 80,
                primaryLanguage := some "TypeScript" }⟩ ],
    hasNextPage := false }

/-- The single `OrgPRData` the test expects for `pageC1`. -/
def resultC1 : OrgPRData :=
  { org := "octo", orgDisplayName := "hello-world",
    avatarUrl := "https://avatars.githubusercontent.com/u/1",
    repo := "octo/hello-world", stars := some 120, mergedPRs := 2,
    language := "JavaScript" }

/-- A fork owned by an account other than the queried user: still counted. -/
def wRepoC1 : Repository :=
  { nameWithOwner := "alice/f", isFork := true, ownerTypename := some "User",
    ownerLogin := "alice", ownerAvatarUrl := "avA", ownerName := none,
    stargazerCount := 4, primaryLanguage := some "Rust" }

/-- A page whose only repository has zero stars (all repositories tie at
the zero maximum). -/
def pageC2zero : Page :=
  { ok := true, status := 200, statusText := "OK", errors := none,
    nodes :=
      [ ⟨some { nameWithOwner := "alice/zero", isFork := false,
                ownerTypename := some "User", ownerLogin := "alice",
                ownerAvatarUrl := "avA", ownerName := none, stargazerCount := 0,
                primaryLanguage := some "C" }⟩ ],
    hasNextPage := false }

/-- A fresh repository record used to witness seeding. -/
def seedRepoC3 : Repository :=
  { nameWithOwner := "alice/r", isFork := false, ownerTypename := some "User",
    ownerLogin := "alice", ownerAvatarUrl := "avA", ownerName := none,
    stargazerCount := 7, primaryLanguage := some "Go" }

/-- A failing page response (HTTP 502). -/
def badPageC6 : Page :=
  { ok := false, status := 502, statusText := "Bad Gateway", errors := none,
    nodes := [], hasNextPage := false }

/-- A one-page run over two owners with one merged PR each. -/
def pageC8 : Page :=
  { ok := true, status := 200, statusText := "OK", errors := none,
    nodes :=
      [ ⟨some { nameWithOwner := "alice/r", isFork := false,
                ownerTypename := some "User", ownerLogin := "alice",
                ownerAvatarUrl := "avA", ownerName := none, stargazerCount := 3,
                primaryLanguage := none }⟩
      , ⟨some { nameWithOwner := "bob/r", isFork := false,
                ownerTypename := some "User", ownerLogin := "bob",
                ownerAvatarUrl := "avB", ownerName := none, stargazerCount := 1,
                primaryLanguage := some "Go" }⟩ ],
    hasNextPage := false }

/-- The accumulator map produced from `pageC8`. -/
def orgMapC8 : OrgMap :=
  [ ("alice",
      { org := "alice", orgDisplayName := "alice", avatarUrl := "avA",
        ownerType := "User",
        repos := [("alice/r", { stars := 3, prs := 1, language := "" })] })
  , ("bob",
      { org := "bob", orgDisplayName := "bob", avatarUrl := "avB",
        ownerType := "User",
        repos := [("bob/r", { stars := 1, prs := 1, language := "Go" })] }) ]

/-- A two-repository owner accumulator with a positive star count. -/
def entryC2w : OrgEntry :=
  { org := "o", orgDisplayName := "o", avatarUrl := "a", ownerType := "User",
    repos := [("o/a", { stars := 5, prs := 1, language := "C" }),
      ("o/b", { stars := 5, prs := 2, language := "D" })] }

/-- A page for the exclude-list comparison: one merged PR on
`apple/core`, whose name contains the letter `a` but not the text `a,b`. -/
def pageC10 : Page :=
  { ok := true, status := 200, statusText := "OK", errors := none,
    nodes :=
      [ ⟨some { nameWithOwner := "apple/core", isFork := false,
                ownerTypename := some "User", ownerLogin := "apple",
                ownerAvatarUrl := "avP", ownerName := none, stargazerCount := 1,
                primaryLanguage := none }⟩ ],
    hasNextPage := false }

/-- Render data with an undefined star count (the aggregator emits this
for an owner whose champion row never materialised). -/
def dataC4 : OrgPRData :=
  { org := "o", orgDisplayName := "O", avatarUrl := "a", repo := "o/r",
    stars := none, mergedPRs := 2, language := "" }

/-- Render data for the renderer witnesses: a defined star count and a
language carried by the icon table. -/
def dataC7 : OrgPRData :=
  { org := "o", orgDisplayName := "O", avatarUrl := "a", repo := "o/r",
    stars := some 65000, mergedPRs := 12, language := "Python" }

/-- A fetch oracle that fails on every URL. -/
def fetchNone : String → Option String := fun _ => none

/-! ## General lemmas: substring occurrence in concatenations -/

theorem infix_append_right_of {p b : List Char} (a : List Char) (h : p <:+: b) :
    p <:+: a ++ b := by
  obtain ⟨s, t, rfl⟩ := h
  exact ⟨a ++ s, t, by simp⟩

theorem noTok_of_cons {p l : List Char} {c : Char} (h : ¬ p <:+: c :: l) :
    ¬ p <:+: l :=
  fun hh => h (List.infix_cons hh)

theorem noTok_of_disjoint {p s : List Char} (hp : p ≠ []) (h : ∀ ch ∈ p, ch ∉ s) :
    ¬ p <:+: s := by
  intro hinf
  match p, hp with
  | ch :: p', _ => exact h ch (by simp) (hinf.subset (by simp))

/-- Separator lemma: a token that avoids the character `c` cannot occur
across `a ++ c :: d` unless it occurs inside `a` or inside `d`. -/
theorem noTok_split {p a d : List Char} {c : Char} (hc : c ∉ p)
    (ha : ¬ p <:+: a) (hd : ¬ p <:+: d) : ¬ p <:+: a ++ c :: d := by
  intro h
  obtain ⟨u, v, h⟩ := h
  by_cases h1 : u.length + p.length ≤ a.length
  · apply ha
    have htake : a.take (u.length + p.length) = u ++ p := by
      have e1 : (u ++ p ++ v).take (u.length + p.length) = (a ++ c :: d).take (u.length + p.length) := by
        rw [h]
      rw [List.take_append_of_le_length h1] at e1
      have e2 : (u ++ p ++ v).take (u.length + p.length) = u ++ p := by
        have : (u ++ p).length = u.length + p.length := by simp
        rw [← this, List.take_left]
      rw [e2] at e1
      exact e1.symm
    refine ⟨u, a.drop (u.length + p.length), ?_⟩
    have := List.take_append_drop (u.length + p.length) a
    rw [htake] at this
    simpa [List.append_assoc] using this
  · by_cases h2 : a.length + 1 ≤ u.length
    · apply hd
      have e1 : (u ++ p ++ v).drop (a.length + 1) = (a ++ c :: d).drop (a.length + 1) := by rw [h]
      have e2 : (a ++ c :: d).drop (a.length + 1) = d := by
        have : a.length + 1 = a.length + 1 := rfl
        rw [show (a ++ c :: d) = a ++ (c :: d) from rfl, List.drop_append 1]
        rfl
      have e3 : (u ++ p ++ v).drop (a.length + 1) = u.drop (a.length + 1) ++ p ++ v := by
        rw [List.append_assoc, List.drop_append_of_le_length h2, ← List.append_assoc]
      rw [e2, e3] at e1
      exact ⟨u.drop (a.length + 1), v, e1⟩
    · apply hc
      have hu : u.length ≤ a.length := by omega
      have hi : a.length - u.length < p.length := by omega
      have hlen : a.length < (u ++ p ++ v).length := by
        have : (u ++ p ++ v).length = (a ++ c :: d).length := by rw [h]
        simp at this
        simp [this]
      have hlen2 : a.length < (a ++ c :: d).length := by simp
      have hL : (u ++ p ++ v)[a.length] = c := by
        have : (u ++ p ++ v)[a.length] = (a ++ c :: d)[a.length] := by
          congr 1
        rw [this, List.getElem_append_right (Nat.le_refl a.length)]
        simp
      have hmidlen : a.length < (u ++ p).length := by simp; omega
      have hR : (u ++ p ++ v)[a.length] = p[a.length - u.length] := by
        rw [List.getElem_append_left hmidlen, List.getElem_append_right hu]
      rw [hR] at hL
      rw [← hL]
      exact List.getElem_mem hi

theorem chainData_cons (c : Char) (l : List Char)
    (pairs : List (List Char × List Char)) :
    chainData (c :: l) pairs = c :: chainData l pairs := by
  cases pairs <;> simp [chainData]

theorem headSafeB_elim {p l : List Char} (h : headSafeB p l = true) :
    ∃ c l', l = c :: l' ∧ c ∉ p := by
  match l, h with
  | c :: l', h => exact ⟨c, l', rfl, by simpa [headSafeB] using h⟩

theorem lastSafeB_elim {p l : List Char} (h : lastSafeB p l = true) :
    ∃ init e, l = init ++ [e] ∧ e ∉ p := by
  match l, h with
  | [], h => simp [lastSafeB] at h
  | c :: l', h =>
    refine ⟨(c :: l').dropLast, (c :: l').getLast (by simp), (List.dropLast_append_getLast (by simp)).symm, ?_⟩
    have := List.getLast?_eq_getLast (c :: l') (by simp)
    rw [lastSafeB, this] at h
    simpa using h

/-- Chain lemma: a token occurs in an alternating literal/value
concatenation only if it occurs in one of the pieces, provided every
literal begins and ends with a character the token avoids. -/
theorem noTok_chain (p : List Char) :
    ∀ (pairs : List (List Char × List Char)) (head : List Char),
      ¬ p <:+: head →
      lastSafeB p head = true →
      (∀ q ∈ pairs, ¬ p <:+: q.1) →
      (∀ q ∈ pairs, ¬ p <:+: q.2 ∧ headSafeB p q.2 = true ∧ lastSafeB p q.2 = true) →
      ¬ p <:+: chainData head pairs := by
  intro pairs
  induction pairs with
  | nil =>
    intro head hh _ _ _
    simpa [chainData] using hh
  | cons q rest ih =>
    intro head hh hlast hvals hlits
    obtain ⟨v, l⟩ := q
    obtain ⟨hl, hlHead, hlLast⟩ := hlits (v, l) (List.mem_cons_self _ _)
    have hv : ¬ p <:+: v := hvals (v, l) (List.mem_cons_self _ _)
    have htail : ¬ p <:+: chainData l rest :=
      ih l hl hlLast (fun q hq => hvals q (List.mem_cons_of_mem _ hq))
        (fun q hq => hlits q (List.mem_cons_of_mem _ hq))
    obtain ⟨c, l', rfl, hc⟩ := headSafeB_elim hlHead
    rw [chainData_cons] at htail
    have hmid : ¬ p <:+: v ++ chainData (c :: l') rest := by
      rw [chainData_cons]
      exact noTok_split hc hv (noTok_of_cons htail)
    obtain ⟨init, e, he, hep⟩ := lastSafeB_elim hlast
    have hinit : ¬ p <:+: init := by
      intro hinf
      apply hh
      rw [he]
      exact hinf.trans ⟨[], [e], by simp⟩
    show ¬ p <:+: head ++ (v ++ chainData (c :: l') rest)
    rw [he, List.append_assoc]
    exact noTok_split hep hinit hmid

/-! ## `escapeXml` lemmas -/

theorem xmlEntity_of_plain {c : Char} (h : c ∉ xmlSpecials) : xmlEntity c = [c] := by
  simp only [xmlSpecials, List.mem_cons, List.mem_singleton, not_or] at h
  obtain ⟨h1, h2, h3, h4, h5⟩ := h
  simp [xmlEntity, h1, h2, h3, h4, h5]

theorem escapeXml_eq_spec (s : String) : escapeXml s = escapeXmlSpec s := by
  have key : ∀ l : List Char,
      (((((l.flatMap (fun x => if x = '&' then "&amp;".data else [x])).flatMap
          (fun x => if x = '<' then "&lt;".data else [x])).flatMap
          (fun x => if x = '>' then "&gt;".data else [x])).flatMap
          (fun x => if x = '"' then "&quot;".data else [x])).flatMap
          (fun x => if x = aposChar then "&#39;".data else [x]))
        = l.flatMap xmlEntity := by
    intro l
    induction l with
    | nil => rfl
    | cons x xs ih =>
      simp only [List.flatMap_cons, List.flatMap_append]
      rw [ih]
      congr 1
      by_cases h1 : x = '&'
      · subst h1; rfl
      by_cases h2 : x = '<'
      · subst h2; rfl
      by_cases h3 : x = '>'
      · subst h3; rfl
      by_cases h4 : x = '"'
      · subst h4; rfl
      by_cases h5 : x = aposChar
      · subst h5; rfl
      simp [h1, h2, h3, h4, h5, xmlEntity]
  exact congrArg String.mk (key s.data)

theorem escapeXml_of_plain {s : String} (h : ∀ c ∈ s.data, c ∉ xmlSpecials) :
    escapeXml s = s := by
  rw [escapeXml_eq_spec]
  have key : ∀ l : List Char, (∀ c ∈ l, c ∉ xmlSpecials) → l.flatMap xmlEntity = l := by
    intro l hl
    induction l with
    | nil => rfl
    | cons x xs ih =>
      rw [List.flatMap_cons, xmlEntity_of_plain (hl x (List.mem_cons_self _ _)),
        ih (fun c hc => hl c (List.mem_cons_of_mem _ hc))]
      rfl
  show String.mk (s.data.flatMap xmlEntity) = s
  rw [key s.data h]

/-- Claim C9: `escapeXml` substitutes exactly the five XML special
characters by their entities and performs no other transformation
(it equals the character-wise simultaneous substitution), hence leaves
any string without those characters unchanged, and maps the sample text
to the expected escaped form. -/
theorem C9_escapeXml_exact :
    (∀ s : String, escapeXml s = escapeXmlSpec s) ∧
    (∀ s : String, (∀ c ∈ s.data, c ∉ xmlSpecials) → escapeXml s = s) ∧
    escapeXml "a & b < c > d \x22 e \x27 f" =
      "a &amp; b &lt; c &gt; d &quot; e &#39; f" :=
  ⟨escapeXml_eq_spec, fun _ h => escapeXml_of_plain h, by rfl⟩

/-- Witness for C9 at a concrete plain string. -/
theorem C9_escapeXml_exact_witness : escapeXml "hello" = "hello" :=
  C9_escapeXml_exact.2.1 "hello" (by decide)

/-! ## Sorting lemmas (stable descending sort by `mergedPRs`) -/

theorem mem_insertByMerged {x z : OrgPRData} :
    ∀ {l : List OrgPRData}, z ∈ insertByMerged x l → z = x ∨ z ∈ l := by
  intro l
  induction l with
  | nil => intro h; simpa [insertByMerged] using h
  | cons y ys ih =>
    intro h
    rw [insertByMerged] at h
    by_cases hc : x.mergedPRs ≥ y.mergedPRs
    · rw [if_pos hc] at h
      rcases List.mem_cons.mp h with h | h
      · exact Or.inl h
      · exact Or.inr h
    · rw [if_neg hc] at h
      rcases List.mem_cons.mp h with h | h
      · exact Or.inr (by simp [h])
      · rcases ih h with h' | h'
        · exact Or.inl h'
        · exact Or.inr (List.mem_cons_of_mem _ h')

theorem pairwise_insertByMerged {x : OrgPRData} :
    ∀ {l : List OrgPRData},
      l.Pairwise (fun a b => b.mergedPRs ≤ a.mergedPRs) →
      (insertByMerged x l).Pairwise (fun a b => b.mergedPRs ≤ a.mergedPRs) := by
  intro l
  induction l with
  | nil => intro _; simp [insertByMerged]
  | cons y ys ih =>
    intro h
    rw [List.pairwise_cons] at h
    obtain ⟨hy, hys⟩ := h
    rw [insertByMerged]
    by_cases hc : x.mergedPRs ≥ y.mergedPRs
    · rw [if_pos hc]
      refine List.Pairwise.cons ?_ (List.Pairwise.cons hy hys)
      intro z hz
      rcases List.mem_cons.mp hz with rfl | hz'
      · exact hc
      · exact le_trans (hy z hz') hc
    · rw [if_neg hc]
      refine List.Pairwise.cons ?_ (ih hys)
      intro z hz
      rcases mem_insertByMerged hz with rfl | hz'
      · omega
      · exact hy z hz'

theorem sortByMergedDesc_pairwise (l : List OrgPRData) :
    (sortByMergedDesc l).Pairwise (fun a b => b.mergedPRs ≤ a.mergedPRs) := by
  induction l with
  | nil => simp [sortByMergedDesc]
  | cons x xs ih => exact pairwise_insertByMerged ih

theorem filter_insertByMerged (x : OrgPRData) (k : Nat) :
    ∀ (l : List OrgPRData),
      (insertByMerged x l).filter (fun o => o.mergedPRs == k) =
        if x.mergedPRs == k then x :: l.filter (fun o => o.mergedPRs == k)
        else l.filter (fun o => o.mergedPRs == k) := by
  intro l
  induction l with
  | nil =>
    by_cases hxk : x.mergedPRs = k <;> simp [insertByMerged, List.filter_cons, hxk]
  | cons y ys ih =>
    rw [insertByMerged]
    by_cases hc : x.mergedPRs ≥ y.mergedPRs
    · rw [if_pos hc]
      by_cases hxk : x.mergedPRs = k <;> simp [List.filter_cons, hxk]
    · rw [if_neg hc]
      by_cases hxk : x.mergedPRs = k
      · have hyk : ¬ y.mergedPRs = k := by omega
        simp [List.filter_cons, hxk, hyk, ih]
      · by_cases hyk : y.mergedPRs = k <;> simp [List.filter_cons, hxk, hyk, ih]

theorem filter_sortByMergedDesc (k : Nat) (l : List OrgPRData) :
    (sortByMergedDesc l).filter (fun o => o.mergedPRs == k) =
      l.filter (fun o => o.mergedPRs == k) := by
  induction l with
  | nil => rfl
  | cons x xs ih =>
    rw [sortByMergedDesc, filter_insertByMerged]
    by_cases hxk : x.mergedPRs = k <;> simp [List.filter_cons, hxk, ih]

/-! ## Main-repository selection lemmas -/

theorem pickMainRepo_eq (repos : List (String × RepoInfo)) :
    pickMainRepo repos = (selMain ⟨"", 0, ""⟩ repos, sumPrs repos) := by
  have key : ∀ (ps : List (String × RepoInfo)) (acc : MainRepo) (t : Nat),
      ps.foldl
        (fun acc p =>
          let total := acc.2 + p.2.prs
          if p.2.stars > acc.1.stars then
            ({ name := p.1, stars := p.2.stars, language := p.2.language }, total)
          else (acc.1, total))
        (acc, t) = (selMain acc ps, t + sumPrs ps) := by
    intro ps
    induction ps with
    | nil => intro acc t; simp [selMain, sumPrs]
    | cons p ps ih =>
      intro acc t
      by_cases hc : p.2.stars > acc.stars
      · simp only [List.foldl_cons, selMain, if_pos hc, ih, sumPrs, List.map_cons, List.sum_cons]
        rw [Nat.add_assoc]
      · simp only [List.foldl_cons, selMain, if_neg hc, ih, sumPrs, List.map_cons, List.sum_cons]
        rw [Nat.add_assoc]
  rw [pickMainRepo, key]
  simp

theorem selMain_char :
    ∀ (ps : List (String × RepoInfo)) (acc : MainRepo),
      (selMain acc ps = acc ∧ ∀ q ∈ ps, q.2.stars ≤ acc.stars) ∨
      (∃ i, ∃ hi : i < ps.length,
        (selMain acc ps).name = ps[i].1 ∧
        (selMain acc ps).stars = ps[i].2.stars ∧
        (selMain acc ps).language = ps[i].2.language ∧
        acc.stars < (selMain acc ps).stars ∧
        (∀ q ∈ ps, q.2.stars ≤ (selMain acc ps).stars) ∧
        (∀ j, ∀ hj : j < ps.length, j < i → ps[j].2.stars < (selMain acc ps).stars)) := by
  intro ps
  induction ps with
  | nil => intro acc; exact Or.inl ⟨rfl, by simp⟩
  | cons p ps ih =>
    intro acc
    by_cases hc : p.2.stars > acc.stars
    · have hsel : selMain acc (p :: ps) = selMain ⟨p.1, p.2.stars, p.2.language⟩ ps := by
        simp [selMain, if_pos hc]
      rcases ih ⟨p.1, p.2.stars, p.2.language⟩ with ⟨heq, hbnd⟩ | ⟨i, hi, hname, hstars, hlang, hlt, hbnd, hprev⟩
      · refine Or.inr ⟨0, by simp, ?_, ?_, ?_, ?_, ?_, ?_⟩
        · rw [hsel, heq]; simp
        · rw [hsel, heq]; simp
        · rw [hsel, heq]; simp
        · rw [hsel, heq]
          exact hc
        · intro q hq
          rcases List.mem_cons.mp hq with rfl | hq'
          · rw [hsel, heq]
          · rw [hsel, heq]
            exact hbnd q hq'
        · intro j hj hj0; omega
      · have hlt' : p.2.stars < (selMain ⟨p.1, p.2.stars, p.2.language⟩ ps).stars := hlt
        have hbnd' : ∀ q ∈ ps, q.2.stars ≤ (selMain ⟨p.1, p.2.stars, p.2.language⟩ ps).stars := hbnd
        refine Or.inr ⟨i + 1, by simpa using Nat.succ_lt_succ hi, ?_, ?_, ?_, ?_, ?_, ?_⟩
        · rw [hsel, hname]; simp
        · rw [hsel, hstars]; simp
        · rw [hsel, hlang]; simp
        · rw [hsel]; omega
        · intro q hq
          rcases List.mem_cons.mp hq with rfl | hq'
          · rw [hsel]; omega
          · rw [hsel]; exact hbnd' q hq'
        · intro j hj hji
          match j with
          | 0 =>
            rw [hsel]
            simp only [List.getElem_cons_zero]
            omega
          | j' + 1 =>
            rw [hsel]
            simp only [List.getElem_cons_succ]
            exact hprev j' (by omega) (by omega)
    · have hsel : selMain acc (p :: ps) = selMain acc ps := by
        simp [selMain, if_neg hc]
      rcases ih acc with ⟨heq, hbnd⟩ | ⟨i, hi, hname, hstars, hlang, hlt, hbnd, hprev⟩
      · refine Or.inl ⟨by rw [hsel, heq], ?_⟩
        intro q hq
        rcases List.mem_cons.mp hq with rfl | hq'
        · omega
        · exact hbnd q hq'
      · refine Or.inr ⟨i + 1, by simpa using Nat.succ_lt_succ hi, ?_, ?_, ?_, ?_, ?_, ?_⟩
        · rw [hsel, hname]; simp
        · rw [hsel, hstars]; simp
        · rw [hsel, hlang]; simp
        · rw [hsel]; omega
        · intro q hq
          rcases List.mem_cons.mp hq with rfl | hq'
          · rw [hsel]; omega
          · rw [hsel]; exact hbnd q hq'
        · intro j hj hji
          match j with
          | 0 =>
            rw [hsel]
            simp only [List.getElem_cons_zero]
            omega
          | j' + 1 =>
            rw [hsel]
            simp only [List.getElem_cons_succ]
            exact hprev j' (by omega) (by omega)

/-! ## Accumulator lemmas -/

theorem lookup_updateAssoc_self {β : Type} (k : String) (f : β → β) :
    ∀ l : List (String × β), (updateAssoc k f l).lookup k = (l.lookup k).map f := by
  intro l
  induction l with
  | nil => rfl
  | cons q l ih =>
    obtain ⟨k', v⟩ := q
    rw [updateAssoc]
    by_cases h : k' = k
    · subst h
      simp [List.lookup]
    · have hne : (k == k') = false := by simp [h]; intro hk; exact h hk.symm
      simp only [if_neg h, List.lookup, hne]
      exact ih

theorem lookup_updateAssoc_ne {β : Type} {k k' : String} (h : k' ≠ k) (f : β → β) :
    ∀ l : List (String × β), (updateAssoc k f l).lookup k' = l.lookup k' := by
  intro l
  induction l with
  | nil => rfl
  | cons q l ih =>
    obtain ⟨k₀, v⟩ := q
    rw [updateAssoc]
    by_cases h0 : k₀ = k
    · subst h0
      have hne : (k' == k₀) = false := by simp [h]
      simp [List.lookup, hne]
    · simp only [if_neg h0, List.lookup]
      by_cases hk : k' = k₀
      · simp [hk]
      · have hne : (k' == k₀) = false := by simp [hk]
        simp [hne, ih]

theorem lookup_append_assocList {β : Type} (k : String) :
    ∀ l₁ l₂ : List (String × β),
      (l₁ ++ l₂).lookup k =
        match l₁.lookup k with
        | some v => some v
        | none => l₂.lookup k := by
  intro l₁ l₂
  induction l₁ with
  | nil => simp [List.lookup]
  | cons q l ih =>
    obtain ⟨k₀, v⟩ := q
    by_cases hk : k = k₀
    · simp [List.lookup, hk]
    · have hne : (k == k₀) = false := by simp [hk]
      simp [List.lookup, hne, ih]

theorem exists_lookup_updateAssoc {β : Type} (k : String) (f : β → β)
    (l : List (String × β)) {v : β} (h : l.lookup k = some v) :
    (updateAssoc k f l).lookup k = some (f v) := by
  rw [lookup_updateAssoc_self, h]
  rfl

theorem lookup_append_singleton_self {β : Type} (k : String) (v : β)
    (l : List (String × β)) (h : l.lookup k = none) :
    (l ++ [(k, v)]).lookup k = some v := by
  rw [lookup_append_assocList, h]
  simp [List.lookup]

theorem processNode_noRepo (u : String) (excl : List String) (m : OrgMap) :
    processNode u excl m ⟨none⟩ = m := rfl

theorem processNode_selfFork (u : String) (excl : List String) (m : OrgMap)
    (repo : Repository) (h1 : repo.ownerLogin = u) (h2 : repo.isFork = true) :
    processNode u excl m ⟨some repo⟩ = m := by
  simp [processNode, h1, h2]

theorem processNode_excluded (u : String) (excl : List String) (m : OrgMap)
    (repo : Repository) (h : shouldExcludeRepo repo.nameWithOwner excl = true) :
    processNode u excl m ⟨some repo⟩ = m := by
  simp [processNode, h]

theorem processNode_count_self (u : String) (excl : List String) (m : OrgMap)
    (repo : Repository)
    (hns : ¬(repo.ownerLogin = u ∧ repo.isFork = true))
    (hne : shouldExcludeRepo repo.nameWithOwner excl = false) :
    repoPRCount (processNode u excl m ⟨some repo⟩) repo.ownerLogin repo.nameWithOwner =
      repoPRCount m repo.ownerLogin repo.nameWithOwner + 1 := by
  rw [processNode]
  dsimp only
  rw [if_neg (by simpa using hns), if_neg (by simp [hne])]
  cases hm : m.lookup repo.ownerLogin with
  | some e =>
    cases hr : e.repos.lookup repo.nameWithOwner with
    | some r =>
      simp [repoPRCount, lookup_updateAssoc_self, hm, hr]
    | none =>
      simp [repoPRCount, lookup_updateAssoc_self, lookup_append_assocList, hm, hr,
        List.lookup]
  | none =>
    simp [repoPRCount, lookup_updateAssoc_self, lookup_append_assocList, hm,
      List.lookup, updateAssoc]

theorem processNode_count_other (u : String) (excl : List String) (o rn : String)
    (m : OrgMap) (repo : Repository)
    (hns : ¬(repo.ownerLogin = u ∧ repo.isFork = true))
    (hex : shouldExcludeRepo repo.nameWithOwner excl = false)
    (hne : ¬(repo.ownerLogin = o ∧ repo.nameWithOwner = rn)) :
    repoPRCount (processNode u excl m ⟨some repo⟩) o rn = repoPRCount m o rn := by
  rw [processNode]
  dsimp only
  rw [if_neg (by simpa using hns), if_neg (by simp [hex])]
  by_cases ho : repo.ownerLogin = o
  · have hrn : rn ≠ repo.nameWithOwner := by
      intro h; exact hne ⟨ho, h.symm⟩
    cases hm : m.lookup repo.ownerLogin with
    | some e =>
      rw [repoPRCount, ho] at *
      simp only [hm, Option.isSome_some, if_true]
      rw [lookup_updateAssoc_self, hm, Option.map_some']
      dsimp only
      rw [lookup_updateAssoc_ne hrn]
      cases hr : e.repos.lookup repo.nameWithOwner with
      | some r =>
        simp only [hr, Option.isSome_some, if_true]
        rw [repoPRCount, hm]
      | none =>
        simp only [hr, Option.isSome_none, Bool.false_eq_true, if_false]
        rw [lookup_append_assocList, repoPRCount, hm]
        have : (rn == repo.nameWithOwner) = false := by simpa using hrn
        cases hlk : e.repos.lookup rn <;> simp [List.lookup, this, hlk]
    | none =>
      rw [repoPRCount, ho] at *
      simp only [hm, Option.isSome_none, Bool.false_eq_true, if_false]
      rw [lookup_updateAssoc_self, lookup_append_assocList, hm]
      simp only [List.lookup, beq_self_eq_true, Option.map_some']
      rw [lookup_updateAssoc_ne hrn]
      have : (rn == repo.nameWithOwner) = false := by simpa using hrn
      rw [repoPRCount, hm]
      simp [List.lookup, this, lookup_append_assocList]
  · have ho' : o ≠ repo.ownerLogin := fun h => ho h.symm
    cases hm : m.lookup repo.ownerLogin with
    | some e =>
      simp only [hm, Option.isSome_some, if_true]
      rw [repoPRCount, lookup_updateAssoc_ne ho', repoPRCount]
    | none =>
      simp only [hm, Option.isSome_none, Bool.false_eq_true, if_false]
      rw [repoPRCount, lookup_updateAssoc_ne ho', lookup_append_assocList]
      have : (o == repo.ownerLogin) = false := by simpa using ho'
      cases hlk : m.lookup o <;> simp [repoPRCount, List.lookup, this, hlk]

theorem qualifies_eq_false_of_selfFork {u : String} {excl : List String}
    {o rn : String} {repo : Repository}
    (h1 : repo.ownerLogin = u) (h2 : repo.isFork = true) :
    qualifies u excl o rn ⟨some repo⟩ = false := by
  simp [qualifies, h1, h2]

theorem qualifies_eq_false_of_excluded {u : String} {excl : List String}
    {o rn : String} {repo : Repository}
    (h : shouldExcludeRepo repo.nameWithOwner excl = true) :
    qualifies u excl o rn ⟨some repo⟩ = false := by
  simp [qualifies, h]

theorem qualifies_eq_false_of_other {u : String} {excl : List String}
    {o rn : String} {repo : Repository}
    (h : ¬(repo.ownerLogin = o ∧ repo.nameWithOwner = rn)) :
    qualifies u excl o rn ⟨some repo⟩ = false := by
  by_cases h1 : repo.ownerLogin = o
  · have h2 : repo.nameWithOwner ≠ rn := fun hh => h ⟨h1, hh⟩
    simp [qualifies, h2]
  · simp [qualifies, h1]

theorem qualifies_eq_true_of_hit {u : String} {excl : List String} {repo : Repository}
    (hns : ¬(repo.ownerLogin = u ∧ repo.isFork = true))
    (hex : shouldExcludeRepo repo.nameWithOwner excl = false) :
    qualifies u excl repo.ownerLogin repo.nameWithOwner ⟨some repo⟩ = true := by
  by_cases hlog : repo.ownerLogin = u
  · have hf : repo.isFork = false := by
      cases hfk : repo.isFork
      · rfl
      · exact absurd ⟨hlog, hfk⟩ hns
    simp [qualifies, hex, hf]
  · simp [qualifies, hex, hlog]

/-- Per-item effect on one repository counter: exactly the qualifying
items increment it. -/
theorem processNode_count (u : String) (excl : List String) (o rn : String)
    (m : OrgMap) (node : SearchNode) :
    repoPRCount (processNode u excl m node) o rn =
      repoPRCount m o rn + (if qualifies u excl o rn node then 1 else 0) := by
  match node with
  | ⟨none⟩ => simp [processNode, qualifies]
  | ⟨some repo⟩ =>
    by_cases hsf : repo.ownerLogin = u ∧ repo.isFork = true
    · rw [processNode_selfFork u excl m repo hsf.1 hsf.2,
        qualifies_eq_false_of_selfFork hsf.1 hsf.2]
      simp
    · by_cases hex : shouldExcludeRepo repo.nameWithOwner excl = true
      · rw [processNode_excluded u excl m repo hex, qualifies_eq_false_of_excluded hex]
        simp
      · have hex' : shouldExcludeRepo repo.nameWithOwner excl = false := by
          simpa using hex
        by_cases hhit : repo.ownerLogin = o ∧ repo.nameWithOwner = rn
        · obtain ⟨ho, hrn⟩ := hhit
          subst ho; subst hrn
          rw [processNode_count_self u excl m repo hsf hex',
            qualifies_eq_true_of_hit hsf hex']
          simp
        · rw [processNode_count_other u excl o rn m repo hsf hex' hhit,
            qualifies_eq_false_of_other hhit]
          simp

/-- Folding a list of items: the counter grows by the number of
qualifying items. -/
theorem foldl_processNode_count (u : String) (excl : List String) (o rn : String) :
    ∀ (nodes : List SearchNode) (m : OrgMap),
      repoPRCount (nodes.foldl (processNode u excl) m) o rn =
        repoPRCount m o rn + nodes.countP (qualifies u excl o rn) := by
  intro nodes
  induction nodes with
  | nil => intro m; simp
  | cons n rest ih =>
    intro m
    rw [List.foldl_cons, ih, processNode_count, List.countP_cons]
    omega

/-- Existing per-repo records keep their seeded star count and language;
a processed item touches the merged count only. -/
theorem processNode_preserves (u : String) (excl : List String) (m : OrgMap)
    (node : SearchNode) (o rn : String) (e : OrgEntry) (r : RepoInfo)
    (he : m.lookup o = some e) (hr : e.repos.lookup rn = some r) :
    ∃ e' r', (processNode u excl m node).lookup o = some e' ∧
      e'.repos.lookup rn = some r' ∧
      r'.stars = r.stars ∧ r'.language = r.language ∧
      (r'.prs = r.prs ∨ r'.prs = r.prs + 1) := by
  match node with
  | ⟨none⟩ => exact ⟨e, r, he, hr, rfl, rfl, Or.inl rfl⟩
  | ⟨some repo⟩ =>
    by_cases hsf : repo.ownerLogin = u ∧ repo.isFork = true
    · rw [processNode_selfFork u excl m repo hsf.1 hsf.2]
      exact ⟨e, r, he, hr, rfl, rfl, Or.inl rfl⟩
    · by_cases hex : shouldExcludeRepo repo.nameWithOwner excl = true
      · rw [processNode_excluded u excl m repo hex]
        exact ⟨e, r, he, hr, rfl, rfl, Or.inl rfl⟩
      · have hex' : shouldExcludeRepo repo.nameWithOwner excl = false := by
          simpa using hex
        rw [processNode]
        dsimp only
        rw [if_neg (by simpa using hsf), if_neg (by simp [hex'])]
        by_cases ho : repo.ownerLogin = o
        · subst ho
          simp only [he, Option.isSome_some, if_true]
          rw [lookup_updateAssoc_self, he, Option.map_some']
          by_cases hrn : repo.nameWithOwner = rn
          · subst hrn
            refine ⟨_, ⟨r.stars, r.prs + 1, r.language⟩, rfl, ?_, rfl, rfl, Or.inr rfl⟩
            dsimp only
            simp only [hr, Option.isSome_some, if_true]
            rw [lookup_updateAssoc_self, hr]
            rfl
          · have hrn' : rn ≠ repo.nameWithOwner := fun hh => hrn hh.symm
            refine ⟨_, r, rfl, ?_, rfl, rfl, Or.inl rfl⟩
            dsimp only
            rw [lookup_updateAssoc_ne hrn']
            cases hlk : e.repos.lookup repo.nameWithOwner with
            | some r0 =>
              simp only [hlk, Option.isSome_some, if_true]
              exact hr
            | none =>
              simp only [hlk, Option.isSome_none, Bool.false_eq_true, if_false]
              rw [lookup_append_assocList, hr]
        · have ho' : o ≠ repo.ownerLogin := fun hh => ho hh.symm
          refine ⟨e, r, ?_, hr, rfl, rfl, Or.inl rfl⟩
          cases hm : m.lookup repo.ownerLogin with
          | some e0 =>
            simp only [hm, Option.isSome_some, if_true]
            rw [lookup_updateAssoc_ne ho', he]
          | none =>
            simp only [hm, Option.isSome_none, Bool.false_eq_true, if_false]
            rw [lookup_updateAssoc_ne ho', lookup_append_assocList, he]

/-- Seeding: the first qualifying item for a repository creates its
record with that item's star count and primary language and count 1. -/
theorem processNode_seed (u : String) (excl : List String) (m : OrgMap)
    (repo : Repository)
    (hns : ¬(repo.ownerLogin = u ∧ repo.isFork = true))
    (hex : shouldExcludeRepo repo.nameWithOwner excl = false)
    (habs : repoAbsent m repo.ownerLogin repo.nameWithOwner) :
    ∃ e', (processNode u excl m ⟨some repo⟩).lookup repo.ownerLogin = some e' ∧
      e'.repos.lookup repo.nameWithOwner =
        some ⟨repo.stargazerCount, 1, jsOr repo.primaryLanguage ""⟩ := by
  rw [processNode]
  dsimp only
  rw [if_neg (by simpa using hns), if_neg (by simp [hex])]
  cases hm : m.lookup repo.ownerLogin with
  | some e =>
    have hr : e.repos.lookup repo.nameWithOwner = none := habs e hm
    simp only [hm, Option.isSome_some, if_true]
    refine ⟨_, exists_lookup_updateAssoc _ _ _ hm, ?_⟩
    dsimp only
    simp only [hr, Option.isSome_none, Bool.false_eq_true, if_false]
    rw [lookup_updateAssoc_self, lookup_append_assocList, hr]
    simp [List.lookup]
  | none =>
    simp only [hm, Option.isSome_none, Bool.false_eq_true, if_false]
    refine ⟨_, exists_lookup_updateAssoc _ _ _ (lookup_append_singleton_self _ _ _ hm), ?_⟩
    dsimp only
    simp [List.lookup, updateAssoc]

/-! ## Pagination failure lemma -/

theorem processPages_error_iff (u : String) (excl : List String) :
    ∀ (pages : List Page) (m : OrgMap),
      (∃ e, processPages u excl pages m = .error e) ↔ reachesBadPage pages = true := by
  intro pages
  induction pages with
  | nil => intro m; simp [processPages, reachesBadPage]
  | cons p ps ih =>
    intro m
    by_cases hok : p.ok = true
    · cases herr : p.errors with
      | some payload =>
        have hbad : pageBad p = true := by simp [pageBad, herr]
        rw [processPages, reachesBadPage]
        simp [hok, herr, hbad]
      | none =>
        have hbad : pageBad p = false := by simp [pageBad, hok, herr]
        rw [processPages, reachesBadPage]
        simp only [hok, not_true_eq_false, if_false, herr, hbad,
          Bool.false_eq_true]
        cases hnp : p.hasNextPage with
        | true => simpa using ih (p.nodes.foldl (processNode u excl) m)
        | false => simp
    · have hok' : p.ok = false := by simpa using hok
      have hbad : pageBad p = true := by simp [pageBad, hok']
      rw [processPages, reachesBadPage]
      simp [hok', hbad]

/-! ## Claim theorems -/

/-- Claim C1: item handling in `fetchUserPRs` — items without repository
information are skipped; items whose owner is the queried user and whose
repository is a fork are skipped (for other owners the fork flag does
not matter); items hitting the exclusion filter are skipped; every other
item increments its repository's merged count by one; and on the
concrete three-item page of the tests the call returns exactly one entry
for `octo` with 2 merged PRs on `octo/hello-world` displayed as
`hello-world`. -/
theorem C1_fetchUserPRs_item_rules :
    (∀ (u : String) (excl : List String) (m : OrgMap),
      processNode u excl m ⟨none⟩ = m) ∧
    (∀ (u : String) (excl : List String) (m : OrgMap) (repo : Repository),
      repo.ownerLogin = u → repo.isFork = true →
      processNode u excl m ⟨some repo⟩ = m) ∧
    (∀ (u : String) (excl : List String) (m : OrgMap) (repo : Repository),
      shouldExcludeRepo repo.nameWithOwner excl = true →
      processNode u excl m ⟨some repo⟩ = m) ∧
    (∀ (u : String) (excl : List String) (m : OrgMap) (repo : Repository),
      ¬(repo.ownerLogin = u ∧ repo.isFork = true) →
      shouldExcludeRepo repo.nameWithOwner excl = false →
      repoPRCount (processNode u excl m ⟨some repo⟩) repo.ownerLogin repo.nameWithOwner =
        repoPRCount m repo.ownerLogin repo.nameWithOwner + 1) ∧
    fetchUserPRs "octo" "token" [] [pageC1] = .ok [resultC1] :=
  ⟨processNode_noRepo,
   fun u excl m repo h1 h2 => processNode_selfFork u excl m repo h1 h2,
   fun u excl m repo h => processNode_excluded u excl m repo h,
   fun u excl m repo h1 h2 => processNode_count_self u excl m repo h1 h2,
   by rfl⟩

/-- Witness for C1: a fork owned by another account is still counted. -/
theorem C1_fetchUserPRs_item_rules_witness :
    repoPRCount (processNode "octo" [] [] ⟨some wRepoC1⟩)
        wRepoC1.ownerLogin wRepoC1.nameWithOwner =
      repoPRCount [] wRepoC1.ownerLogin wRepoC1.nameWithOwner + 1 :=
  C1_fetchUserPRs_item_rules.2.2.2.1 "octo" [] [] wRepoC1 (by decide) (by decide)

/-- Claim C2, amended: the emitted main repository is the first-seen
repository attaining the strictly highest star count provided some
repository has a positive star count; when every repository of the owner
has zero stars, the scan keeps its zero-star initial champion, and the
emitted `repo` is the empty string (with `stars = 0`) rather than the
first-seen repository. -/
theorem C2_main_repo_selection (e : OrgEntry) :
    ((∃ q ∈ e.repos, 0 < q.2.stars) →
      ∃ i, ∃ hi : i < e.repos.length,
        (finalizeEntry e).repo = e.repos[i].1 ∧
        (finalizeEntry e).stars = some e.repos[i].2.stars ∧
        (∀ q ∈ e.repos, q.2.stars ≤ e.repos[i].2.stars) ∧
        (∀ j, ∀ hj : j < e.repos.length, j < i → e.repos[j].2.stars < e.repos[i].2.stars)) ∧
    ((∀ q ∈ e.repos, q.2.stars = 0) →
      (finalizeEntry e).repo = "" ∧ (finalizeEntry e).stars = some 0) := by
  have hrepo : (finalizeEntry e).repo = (selMain ⟨"", 0, ""⟩ e.repos).name := by
    simp [finalizeEntry, pickMainRepo_eq]
  have hstars : (finalizeEntry e).stars = some (selMain ⟨"", 0, ""⟩ e.repos).stars := by
    simp [finalizeEntry, pickMainRepo_eq]
  constructor
  · intro hpos
    rcases selMain_char e.repos ⟨"", 0, ""⟩ with ⟨heq, hbnd⟩ | ⟨i, hi, hname, hst, _, _, hbnd, hprev⟩
    · obtain ⟨q, hq, hq0⟩ := hpos
      have := hbnd q hq
      have hb : (⟨"", 0, ""⟩ : MainRepo).stars = 0 := rfl
      omega
    · refine ⟨i, hi, ?_, ?_, ?_, ?_⟩
      · rw [hrepo, hname]
      · rw [hstars, hst]
      · intro q hq
        have := hbnd q hq
        omega
      · intro j hj hji
        have := hprev j hj hji
        omega
  · intro hzero
    rcases selMain_char e.repos ⟨"", 0, ""⟩ with ⟨heq, _⟩ | ⟨i, hi, _, hst, _, hlt, _, _⟩
    · constructor
      · rw [hrepo, heq]
      · rw [hstars, heq]
    · have hz := hzero e.repos[i] (List.getElem_mem hi)
      omega

/-- Counterexample to C2 as stated: with a single zero-star repository
the emitted main repository is the empty string, not the first-seen
(and highest-starred) repository `alice/zero`. -/
theorem C2_main_repo_counterexample :
    fetchUserPRs "octo" "tok" [] [pageC2zero] =
      .ok [{ org := "alice", orgDisplayName := "alice", avatarUrl := "avA",
             repo := "", stars := some 0, mergedPRs := 1, language := "" }] ∧
    ("" : String) ≠ "alice/zero" :=
  ⟨by rfl, by decide⟩

/-- Witness for C2 at an owner with a positively starred repository. -/
theorem C2_main_repo_selection_witness :
    ∃ i, ∃ hi : i < entryC2w.repos.length,
      (finalizeEntry entryC2w).repo = entryC2w.repos[i].1 ∧
      (finalizeEntry entryC2w).stars = some entryC2w.repos[i].2.stars ∧
      (∀ q ∈ entryC2w.repos, q.2.stars ≤ entryC2w.repos[i].2.stars) ∧
      (∀ j, ∀ hj : j < entryC2w.repos.length, j < i →
        entryC2w.repos[j].2.stars < entryC2w.repos[i].2.stars) :=
  (C2_main_repo_selection entryC2w).1 (by decide)

/-- Claim C3: per-owner `mergedPRs` is the sum over all of that owner's
repositories; a repository record is seeded from the first qualifying
item (stars, language, count 1); later items never change the seeded
star count or language and can only increment the count; and after
folding any item list the count equals the number of qualifying items. -/
theorem C3_accumulator_invariants :
    (∀ e : OrgEntry, (finalizeEntry e).mergedPRs = sumPrs e.repos) ∧
    (∀ (u : String) (excl : List String) (m : OrgMap) (repo : Repository),
      ¬(repo.ownerLogin = u ∧ repo.isFork = true) →
      shouldExcludeRepo repo.nameWithOwner excl = false →
      repoAbsent m repo.ownerLogin repo.nameWithOwner →
      ∃ e', (processNode u excl m ⟨some repo⟩).lookup repo.ownerLogin = some e' ∧
        e'.repos.lookup repo.nameWithOwner =
          some ⟨repo.stargazerCount, 1, jsOr repo.primaryLanguage ""⟩) ∧
    (∀ (u : String) (excl : List String) (m : OrgMap) (node : SearchNode)
      (o rn : String) (e : OrgEntry) (r : RepoInfo),
      m.lookup o = some e → e.repos.lookup rn = some r →
      ∃ e' r', (processNode u excl m node).lookup o = some e' ∧
        e'.repos.lookup rn = some r' ∧
        r'.stars = r.stars ∧ r'.language = r.language ∧
        (r'.prs = r.prs ∨ r'.prs = r.prs + 1)) ∧
    (∀ (u : String) (excl : List String) (o rn : String)
      (nodes : List SearchNode) (m : OrgMap),
      repoPRCount (nodes.foldl (processNode u excl) m) o rn =
        repoPRCount m o rn + nodes.countP (qualifies u excl o rn)) :=
  ⟨fun e => by simp [finalizeEntry, pickMainRepo_eq],
   fun u excl m repo h1 h2 h3 => processNode_seed u excl m repo h1 h2 h3,
   fun u excl m node o rn e r he hr => processNode_preserves u excl m node o rn e r he hr,
   fun u excl o rn nodes m => foldl_processNode_count u excl o rn nodes m⟩

/-- Witness for C3: seeding at a concrete fresh repository. -/
theorem C3_accumulator_invariants_witness :
    ∃ e', (processNode "u" [] [] ⟨some seedRepoC3⟩).lookup seedRepoC3.ownerLogin = some e' ∧
      e'.repos.lookup seedRepoC3.nameWithOwner =
        some ⟨seedRepoC3.stargazerCount, 1, jsOr seedRepoC3.primaryLanguage ""⟩ :=
  C3_accumulator_invariants.2.1 "u" [] [] seedRepoC3 (by decide) (by decide)
    (fun e h => by simp [List.lookup] at h)

/-- Claim C6: `fetchUserPRs` fails exactly when the paginated loop
reaches a response with a non-success status or a GraphQL error value;
the failure carries the status or error payload, and no owner list is
returned in that case. -/
theorem C6_api_failure_fatal (u t : String) (xs : List String) (pages : List Page) :
    ((∃ e, fetchUserPRs u t xs pages = .error e) ↔ reachesBadPage pages = true) ∧
    (reachesBadPage pages = true → ∀ l, fetchUserPRs u t xs pages ≠ .ok l) ∧
    (∀ p ps, pages = p :: ps → p.ok = false →
      fetchUserPRs u t xs pages =
        .error ("GitHub API error: " ++ toString p.status ++ " " ++ p.statusText)) ∧
    (∀ p ps payload, pages = p :: ps → p.ok = true → p.errors = some payload →
      fetchUserPRs u t xs pages =
        .error ("GitHub GraphQL errors: " ++ payload)) := by
  have hiff : (∃ e, fetchUserPRs u t xs pages = .error e) ↔ reachesBadPage pages = true := by
    rw [← processPages_error_iff u (normExclude xs) pages []]
    constructor
    · rintro ⟨e, he⟩
      rw [fetchUserPRs] at he
      cases hp : processPages u (normExclude xs) pages [] with
      | error e0 => exact ⟨e0, rfl⟩
      | ok m => rw [hp] at he; simp at he
    · rintro ⟨e, he⟩
      refine ⟨e, ?_⟩
      rw [fetchUserPRs, he]
  refine ⟨hiff, ?_, ?_, ?_⟩
  · intro hbad l hok
    obtain ⟨e, he⟩ := hiff.mpr hbad
    rw [hok] at he
    exact Except.noConfusion he
  · rintro p ps rfl hko
    rw [fetchUserPRs]
    have : processPages u (normExclude xs) (p :: ps) [] =
        .error ("GitHub API error: " ++ toString p.status ++ " " ++ p.statusText) := by
      rw [processPages]
      rw [if_pos (by simp [hko])]
    rw [this]
  · rintro p ps payload rfl hko herr
    rw [fetchUserPRs]
    have : processPages u (normExclude xs) (p :: ps) [] =
        .error ("GitHub GraphQL errors: " ++ payload) := by
      rw [processPages]
      rw [if_neg (by simp [hko]), herr]
    rw [this]

/-- Witness for C6 at a concrete failing page. -/
theorem C6_api_failure_fatal_witness :
    fetchUserPRs "u" "t" [] [badPageC6] =
      .error ("GitHub API error: " ++ toString badPageC6.status ++ " " ++ badPageC6.statusText) :=
  (C6_api_failure_fatal "u" "t" [] [badPageC6]).2.2.1 badPageC6 [] rfl (by decide)

/-- Claim C8: whenever the accumulation succeeds, the returned list is
the pre-sort per-owner list sorted descending by `mergedPRs`, and
entries with equal counts keep the relative order of the accumulation
pass (stability, expressed by equality of the per-count sublists). -/
theorem C8_output_sorted_stable (u t : String) (xs : List String) (pages : List Page)
    (m : OrgMap) (h : processPages u (normExclude xs) pages [] = .ok m) :
    ∃ l, fetchUserPRs u t xs pages = .ok l ∧
      l.Pairwise (fun a b => b.mergedPRs ≤ a.mergedPRs) ∧
      ∀ k, l.filter (fun o => o.mergedPRs == k) =
        (m.map (fun q => finalizeEntry q.2)).filter (fun o => o.mergedPRs == k) := by
  refine ⟨sortByMergedDesc (m.map (fun q => finalizeEntry q.2)), ?_,
    sortByMergedDesc_pairwise _, fun k => filter_sortByMergedDesc k _⟩
  rw [fetchUserPRs, h]

/-- Witness for C8 on a concrete two-owner page. -/
theorem C8_output_sorted_stable_witness :
    ∃ l, fetchUserPRs "u" "t" [] [pageC8] = .ok l ∧
      l.Pairwise (fun a b => b.mergedPRs ≤ a.mergedPRs) ∧
      ∀ k, l.filter (fun o => o.mergedPRs == k) =
        (orgMapC8.map (fun q => finalizeEntry q.2)).filter (fun o => o.mergedPRs == k) :=
  C8_output_sorted_stable "u" "t" [] [pageC8] orgMapC8 (by rfl)

/-! ## Theme resolver lemmas -/

theorem matchesHexColor_ne_empty {s : String} (h : matchesHexColor s = true) : s ≠ "" := by
  intro he
  subst he
  simp [matchesHexColor, String.length] at h

/-- Claim C5, amended: `resolveColors` is total and deterministic (it is
a function into complete `ColorSet`s); the accepted override pattern is
exactly 3 to 8 bare hex digits and never a `#`-prefixed string; a
matching override is used as `#`+value; any other override is silently
ignored (the result equals the one for an absent override); an absent or
unknown theme name selects the default table; a field omitted by the
selected theme falls back to the default theme's value; and the whole
resolver equals the per-field `hexOverride`/fallback combination. -/
theorem C5_resolveColors_rules :
    (∀ s : String, matchesHexColor s = true ↔
      (3 ≤ s.length ∧ s.length ≤ 8 ∧ ∀ c ∈ s.data, isHexColorDigit c = true)) ∧
    (∀ s : String, s.data.head? = some '#' → matchesHexColor s = false) ∧
    (∀ (T : List (String × ThemeDef)) (o : RenderOptions) (s : String),
      matchesHexColor s = true →
      (resolveColorsWith T { o with title_color := some s }).titleColor = "#" ++ s) ∧
    (∀ (T : List (String × ThemeDef)) (o : RenderOptions) (s : String),
      matchesHexColor s = false →
      resolveColorsWith T { o with title_color := some s } =
        resolveColorsWith T { o with title_color := none }) ∧
    (∀ (T : List (String × ThemeDef)) (o : RenderOptions),
      T.lookup (jsOr o.theme "default") = none →
      resolveColorsWith T o = resolveColorsWith T { o with theme := some "default" }) ∧
    (∀ (T : List (String × ThemeDef)) (o : RenderOptions) (dflt : ThemeDef),
      T.lookup "default" = some dflt →
      resolveColorsWith T o =
        (let base := (T.lookup (jsOr o.theme "default")).getD dflt
         { titleColor := hexOverride o.title_color
             ("#" ++ jsShow (jsOrOpt base.title_color dflt.title_color))
           textColor := hexOverride o.text_color
             ("#" ++ jsShow (jsOrOpt base.text_color dflt.text_color))
           iconColor := hexOverride o.icon_color
             ("#" ++ jsShow (jsOrOpt base.icon_color dflt.icon_color))
           bgColor := hexOverride o.bg_color
             ("#" ++ jsShow (jsOrOpt base.bg_color dflt.bg_color))
           borderColor := hexOverride o.border_color
             ("#" ++ jsShow (jsOrOpt base.border_color dflt.border_color)) })) ∧
    (resolveColors {} =
      { titleColor := "#2f80ed", textColor := "#434d58", iconColor := "#4c71f2",
        bgColor := "#fffefe", borderColor := "#e4e2e2" } ∧
     (resolveColors { theme := some "dark" }).titleColor = "#fff" ∧
     (resolveColors { theme := some "dark" }).bgColor = "#151515" ∧
     (resolveColors { theme := some "dark" }).borderColor = "#e4e2e2" ∧
     (resolveColors { theme := some "nonexistent_xyz" }).titleColor = "#2f80ed") := by
  refine ⟨?_, ?_, ?_, ?_, ?_, ?_, ⟨rfl, rfl, rfl, rfl, rfl⟩⟩
  · intro s
    simp [matchesHexColor, List.all_eq_true, Bool.and_eq_true, decide_eq_true_eq]
    tauto
  · intro s h
    cases s with
    | mk data =>
      cases data with
      | nil => simp at h
      | cons c cs =>
        simp only [String.data, List.head?, Option.some.injEq] at h
        subst h
        have hbad : isHexColorDigit '#' = false := by decide
        simp [matchesHexColor, hbad]
  · intro T o s hm
    have hne : s ≠ "" := matchesHexColor_ne_empty hm
    simp [resolveColorsWith, hexOverride, hm, hne]
  · intro T o s hm
    simp [resolveColorsWith, hexOverride, hm]
  · intro T o h
    have hdn : jsOr (some "default") "default" = "default" := by decide
    cases hd : T.lookup "default" with
    | some d =>
      simp only [resolveColorsWith]
      rw [hdn, h, hd]
      simp
    | none =>
      simp only [resolveColorsWith]
      rw [hdn, h, hd]
  · intro T o dflt hdef
    simp [resolveColorsWith, hdef]

/-- Counterexample to C5 as stated: the override `#ff0000` (hex digits
preceded by `#`) is rejected by the pattern, so the dark theme's title
colour is used — neither reading of "use `#`+that value" matches. -/
theorem C5_hash_prefix_counterexample :
    (resolveColors { theme := some "dark", title_color := some "#ff0000" }).titleColor = "#fff" ∧
    ("#fff" : String) ≠ "##ff0000" ∧ ("#fff" : String) ≠ "#ff0000" :=
  ⟨by rfl, by decide, by decide⟩

/-- Witness for C5: a bare-hex override takes precedence over the theme. -/
theorem C5_resolveColors_rules_witness :
    (resolveColorsWith themesTable
      { ({ theme := some "dark" } : RenderOptions) with title_color := some "ff0000" }).titleColor =
      "#" ++ "ff0000" :=
  C5_resolveColors_rules.2.2.1 themesTable { theme := some "dark" } "ff0000" (by decide)

/-! ## Exclude-list normalisation lemmas (C10) -/

theorem lookup_mem_pairs {t : List (Char × Char)} {c l : Char} :
    t.lookup c = some l → (c, l) ∈ t := by
  induction t with
  | nil => intro h; simp [List.lookup] at h
  | cons p t ih =>
    intro h
    obtain ⟨k, v⟩ := p
    by_cases hk : c = k
    · subst hk
      simp [List.lookup] at h
      simp [h]
    · have : (c == k) = false := by simpa using hk
      rw [List.lookup, this] at h
      exact List.mem_cons_of_mem _ (ih h)

theorem jsLowerChar_idem (c : Char) : jsLowerChar (jsLowerChar c) = jsLowerChar c := by
  cases h : lowerTable.lookup c with
  | none =>
    have h1 : jsLowerChar c = c := by rw [jsLowerChar, h, Option.getD_none]
    rw [h1]
    exact h1
  | some l =>
    have h1 : jsLowerChar c = l := by rw [jsLowerChar, h, Option.getD_some]
    have hval : ∀ p ∈ lowerTable, jsLowerChar p.2 = p.2 := by decide
    rw [h1]
    exact hval (c, l) (lookup_mem_pairs h)

theorem jsIsSpace_jsLowerChar (c : Char) : jsIsSpace (jsLowerChar c) = jsIsSpace c := by
  cases h : lowerTable.lookup c with
  | none =>
    have h1 : jsLowerChar c = c := by rw [jsLowerChar, h, Option.getD_none]
    rw [h1]
  | some l =>
    have h1 : jsLowerChar c = l := by rw [jsLowerChar, h, Option.getD_some]
    have hboth : ∀ p ∈ lowerTable, jsIsSpace p.1 = false ∧ jsIsSpace p.2 = false := by decide
    obtain ⟨hc, hl⟩ := hboth (c, l) (lookup_mem_pairs h)
    rw [h1, hc, hl]

theorem head_dropWhile_false {p : Char → Bool} :
    ∀ {l : List Char} {c : Char}, (l.dropWhile p).head? = some c → p c = false := by
  intro l
  induction l with
  | nil => intro c h; simp at h
  | cons x xs ih =>
    intro c h
    rw [List.dropWhile_cons] at h
    by_cases hx : p x = true
    · rw [if_pos hx] at h
      exact ih h
    · rw [if_neg hx] at h
      simp at h
      rw [← h]
      simpa using hx

theorem dropWhile_eq_self_of_head {p : Char → Bool} {l : List Char}
    (h : ∀ c, l.head? = some c → p c = false) : l.dropWhile p = l := by
  cases l with
  | nil => rfl
  | cons x xs =>
    rw [List.dropWhile_cons, if_neg (by simp [h x rfl])]

theorem getLast_suffix_eq {l s : List Char} (h : s <:+ l) (hne : s ≠ []) :
    s.getLast? = l.getLast? := by
  obtain ⟨u, rfl⟩ := h
  rw [List.getLast?_append]
  cases hs : s.getLast? with
  | none => exact absurd (List.getLast?_eq_none_iff.mp hs) hne
  | some c => rfl

theorem jsTrim_head {s : String} {c : Char} (h : (jsTrim s).data.head? = some c) :
    jsIsSpace c = false := by
  rw [jsTrim] at h
  rw [List.head?_reverse] at h
  have hsfx : (s.data.dropWhile (jsIsSpace ·)).reverse.dropWhile (jsIsSpace ·) <:+
      (s.data.dropWhile (jsIsSpace ·)).reverse := List.dropWhile_suffix _
  have hne : (s.data.dropWhile (jsIsSpace ·)).reverse.dropWhile (jsIsSpace ·) ≠ [] := by
    intro h0
    rw [h0] at h
    simp at h
  rw [getLast_suffix_eq hsfx hne, List.getLast?_reverse] at h
  exact head_dropWhile_false h

theorem jsTrim_getLast {s : String} {c : Char} (h : (jsTrim s).data.getLast? = some c) :
    jsIsSpace c = false := by
  rw [jsTrim] at h
  rw [List.getLast?_reverse] at h
  exact head_dropWhile_false h

theorem jsTrim_idem (s : String) : jsTrim (jsTrim s) = jsTrim s := by
  have h1 : (jsTrim s).data.dropWhile (jsIsSpace ·) = (jsTrim s).data :=
    dropWhile_eq_self_of_head (fun c h => jsTrim_head (s := s) h)
  have h2 : ((jsTrim s).data.reverse).dropWhile (jsIsSpace ·) = (jsTrim s).data.reverse :=
    dropWhile_eq_self_of_head (fun c h => by
      rw [List.head?_reverse] at h
      exact jsTrim_getLast (s := s) h)
  show String.mk ((((jsTrim s).data.dropWhile (jsIsSpace ·)).reverse.dropWhile
    (jsIsSpace ·)).reverse) = jsTrim s
  rw [h1, h2, List.reverse_reverse]

theorem jsToLower_idem (s : String) : jsToLower (jsToLower s) = jsToLower s := by
  rw [jsToLower, jsToLower]
  congr 1
  rw [List.map_map]
  exact List.map_congr_left (fun c _ => jsLowerChar_idem c)

theorem jsTrim_jsToLower (s : String) : jsTrim (jsToLower s) = jsToLower (jsTrim s) := by
  rw [jsTrim, jsToLower, jsToLower, jsTrim]
  congr 1
  have hp : ((jsIsSpace ·) ∘ jsLowerChar) = (jsIsSpace ·) := by
    funext c
    simp [Function.comp, jsIsSpace_jsLowerChar]
  rw [List.dropWhile_map, hp, ← List.map_reverse, List.dropWhile_map, hp, ← List.map_reverse]

theorem normalizeEntry_idem (e : String) :
    normalizeEntry (normalizeEntry e) = normalizeEntry e := by
  rw [normalizeEntry, normalizeEntry, jsTrim_jsToLower, jsTrim_idem, jsToLower_idem]

theorem normalizeEntry_empty : normalizeEntry "" = "" := rfl

theorem normExclude_normExclude (xs : List String) :
    normExclude (normExclude xs) = normExclude xs := by
  rw [normExclude, normExclude]
  have hmap : (((xs.map normalizeEntry).filter (fun e => e ≠ "")).map normalizeEntry) =
      ((xs.map normalizeEntry).filter (fun e => e ≠ "")) := by
    have : ∀ e ∈ (xs.map normalizeEntry).filter (fun e => e ≠ ""),
        normalizeEntry e = e := by
      intro e he
      have he' : e ∈ xs.map normalizeEntry := List.mem_of_mem_filter he
      obtain ⟨x, _, rfl⟩ := List.mem_map.mp he'
      exact normalizeEntry_idem x
    calc ((xs.map normalizeEntry).filter (fun e => e ≠ "")).map normalizeEntry
        = ((xs.map normalizeEntry).filter (fun e => e ≠ "")).map id :=
          List.map_congr_left (fun a ha => this a ha)
      _ = _ := List.map_id _
  rw [hmap, List.filter_filter]
  exact List.filter_congr (fun a _ => by simp)

theorem splitChar_no_comma {x : List Char} (hx : ',' ∉ x) :
    splitChar ',' x = [x] := by
  induction x with
  | nil => rfl
  | cons c cs ih =>
    have hc : ¬(c = ',') := fun h => hx (by simp [h])
    have hcs : ',' ∉ cs := fun h => hx (List.mem_cons_of_mem _ h)
    rw [splitChar, if_neg hc, ih hcs]

theorem splitChar_append_comma {x : List Char} (hx : ',' ∉ x) (r : List Char) :
    splitChar ',' (x ++ ',' :: r) = x :: splitChar ',' r := by
  induction x with
  | nil => simp [splitChar]
  | cons c cs ih =>
    have hc : ¬(c = ',') := fun h => hx (by simp [h])
    have hcs : ',' ∉ cs := fun h => hx (List.mem_cons_of_mem _ h)
    rw [List.cons_append, splitChar, if_neg hc, ih hcs]

theorem joinComma_data :
    ∀ (xs : List String) (x : String),
      (joinComma (x :: xs)).data = x.data ++ xs.flatMap (fun e => ',' :: e.data) := by
  intro xs
  induction xs with
  | nil => intro x; simp [joinComma]
  | cons y ys ih =>
    intro x
    have hstep : joinComma (x :: y :: ys) = joinComma ((x ++ "," ++ y) :: ys) := rfl
    rw [hstep, ih]
    simp [String.data_append]

theorem splitChar_join (xs : List String) (x : String)
    (hx : ',' ∉ x.data) (hxs : ∀ e ∈ xs, ',' ∉ e.data) :
    splitChar ',' (x.data ++ xs.flatMap (fun e => ',' :: e.data)) =
      x.data :: xs.map String.data := by
  induction xs generalizing x with
  | nil => simpa using splitChar_no_comma hx
  | cons y ys ih =>
    rw [List.flatMap_cons]
    rw [show x.data ++ ((',' :: y.data) ++ ys.flatMap (fun e => ',' :: e.data)) =
      x.data ++ ',' :: (y.data ++ ys.flatMap (fun e => ',' :: e.data)) from by simp]
    rw [splitChar_append_comma hx]
    rw [ih y (hxs y (List.mem_cons_self _ _)) (fun e he => hxs e (List.mem_cons_of_mem _ he))]
    rfl

theorem jsSplitComma_join (xs : List String) (x : String)
    (hx : ',' ∉ x.data) (hxs : ∀ e ∈ xs, ',' ∉ e.data) :
    jsSplitComma (joinComma (x :: xs)) = x :: xs := by
  rw [jsSplitComma, joinComma_data, splitChar_join xs x hx hxs]
  rw [List.map_cons]
  congr 1
  rw [List.map_map]
  exact (List.map_congr_left (fun s _ => rfl)).trans (List.map_id xs)

theorem parseExcludeList_joinComma (xs : List String)
    (h : ∀ e ∈ xs, ',' ∉ e.data) :
    parseExcludeList (joinComma xs) = normExclude xs := by
  cases xs with
  | nil => rfl
  | cons x xs' =>
    by_cases hj : joinComma (x :: xs') = ""
    · have hd := congrArg String.data hj
      rw [joinComma_data] at hd
      simp only [String.data] at hd
      have hnil := List.append_eq_nil.mp hd
      have hx : x = "" := by
        cases x with
        | mk d => simp at hnil; rw [hnil.1]
      cases xs' with
      | cons y ys => simp at hnil
      | nil =>
        subst hx
        rw [parseExcludeList, if_pos hj]
        rfl
    · rw [parseExcludeList, if_neg hj,
        jsSplitComma_join xs' x (h x (List.mem_cons_self _ _))
          (fun e he => h e (List.mem_cons_of_mem _ he))]
      rfl

/-- Claim C10, amended: `fetchUserPRs` normalises its exclude list
itself, so passing a raw list or its `parseExcludeList`-normalised form
yields the same result — for every exclude list whose entries contain no
comma. An entry containing a comma is split in two by the
join/parse round trip and can change the result. -/
theorem C10_exclude_self_normalizing (u t : String) (xs : List String)
    (pages : List Page) (h : ∀ e ∈ xs, ',' ∉ e.data) :
    fetchUserPRs u t xs pages =
      fetchUserPRs u t (parseExcludeList (joinComma xs)) pages := by
  have hkey : normExclude (parseExcludeList (joinComma xs)) = normExclude xs := by
    rw [parseExcludeList_joinComma xs h, normExclude_normExclude]
  rw [fetchUserPRs, fetchUserPRs, hkey]

/-- Counterexample to C10 as stated: the entry `a,b` is split into `a`
and `b` by the join/parse round trip; `apple/core` matches `a` but not
`a,b`, so the two calls disagree. -/
theorem C10_exclude_comma_counterexample :
    fetchUserPRs "u" "t" ["a,b"] [pageC10] ≠
      fetchUserPRs "u" "t" (parseExcludeList (joinComma ["a,b"])) [pageC10] := by
  intro h
  have h1 : fetchUserPRs "u" "t" ["a,b"] [pageC10] =
      .ok [{ org := "apple", orgDisplayName := "core", avatarUrl := "avP",
             repo := "apple/core", stars := some 1, mergedPRs := 1, language := "" }] := rfl
  have h2 : fetchUserPRs "u" "t" (parseExcludeList (joinComma ["a,b"])) [pageC10] =
      .ok [] := rfl
  rw [h1, h2] at h
  simp at h

/-- Witness for C10 at a concrete unnormalised comma-free list. -/
theorem C10_exclude_self_normalizing_witness :
    fetchUserPRs "octo" "t" [" PyDantic "] [pageC10] =
      fetchUserPRs "octo" "t" (parseExcludeList (joinComma [" PyDantic "])) [pageC10] :=
  C10_exclude_self_normalizing "octo" "t" [" PyDantic "] [pageC10] (by decide)

/-! ## Renderer decomposition lemmas -/

theorem strEqOfData {a b : String} (h : a.data = b.data) : a = b := by
  cases a; cases b; exact congrArg String.mk h

theorem strInfix_extend_right {p : List Char} {a : String} (b : String)
    (h : p <:+: a.data) : p <:+: (a ++ b).data := by
  rw [String.data_append]
  obtain ⟨s, t, hst⟩ := h
  exact ⟨s, t ++ b.data, by rw [← hst]; simp⟩

theorem strInfix_extend_left {p : List Char} (a : String) {b : String}
    (h : p <:+: b.data) : p <:+: (a ++ b).data := by
  rw [String.data_append]
  exact infix_append_right_of a.data h

theorem strPrefix_extend {p : List Char} {a : String} (b : String)
    (h : p <+: a.data) : p <+: (a ++ b).data := by
  rw [String.data_append]
  exact h.trans (List.prefix_append _ _)

theorem strSuffix_extend {p : List Char} (a : String) {b : String}
    (h : p <:+ b.data) : p <:+ (a ++ b).data := by
  rw [String.data_append]
  exact h.trans (List.suffix_append _ _)

/-- The rendered card splits into the text before the avatar
interpolation, the avatar element, the text between the avatar and the
language element, the language element, and the closing text. -/
theorem renderOrgCard_decomp (data : OrgPRData) (options : RenderOptions)
    (cm : List (String × String)) (f : String → Option String) :
    renderOrgCard data options cm f =
      svgBeforeAvatar data.org data.orgDisplayName (resolveColors options).titleColor
        (resolveColors options).textColor (resolveColors options).bgColor
        (resolveColors options).borderColor (jsOr options.border_radius "4.5")
        (options.hide_border == some "true") ++
      avatarImageSvg data.org ((f (data.avatarUrl ++ "?s=120")).getD "") ++
      svgBetweenAvatarLang data.orgDisplayName ++
      langElementSvg data.language (langIconUriOf data.language f)
        (languageColor data.language cm) ++
      svgAfterLang data.stars data.mergedPRs := by
  apply strEqOfData
  simp only [renderOrgCard, svgTemplate, svgBeforeAvatar, svgBetweenAvatarLang,
    svgAfterLang, String.data_append, List.append_assoc]

/-! ## Digit strings and absence of the text `undefined` -/

theorem toDigitsCore_mem_digits (fuel : Nat) : ∀ (n : Nat) (ds : List Char),
    (∀ c ∈ ds, c ∈ digitChars) → ∀ c ∈ Nat.toDigitsCore 10 fuel n ds, c ∈ digitChars := by
  induction fuel with
  | zero =>
    intro n ds hds c hc
    exact hds c hc
  | succ fuel ih =>
    intro n ds hds c hc
    have hstep : Nat.toDigitsCore 10 (fuel+1) n ds =
        if n / 10 = 0 then Nat.digitChar (n % 10) :: ds
        else Nat.toDigitsCore 10 fuel (n / 10) (Nat.digitChar (n % 10) :: ds) := by
      rw [Nat.toDigitsCore]
    have hds' : ∀ c ∈ (Nat.digitChar (n % 10) :: ds), c ∈ digitChars := by
      intro c hc
      rcases List.mem_cons.mp hc with h | h
      · have h10 : n % 10 < 10 := Nat.mod_lt _ (by decide)
        have hall : ∀ m, m < 10 → Nat.digitChar m ∈ digitChars := by decide
        rw [h]
        exact hall _ h10
      · exact hds c h
    rw [hstep] at hc
    by_cases hz : n / 10 = 0
    · rw [if_pos hz] at hc
      exact hds' c hc
    · rw [if_neg hz] at hc
      exact ih (n / 10) _ hds' c hc

theorem natToString_digits (n : Nat) : ∀ c ∈ (toString n).data, c ∈ digitChars := by
  intro c hc
  have hc' : c ∈ Nat.toDigitsCore 10 (n+1) n [] := hc
  exact toDigitsCore_mem_digits (n+1) n [] (by intro c h; cases h) c hc'

theorem noTok_of_subset {p s : List Char} (S : List Char) (hp : p ≠ [])
    (hdisj : ∀ ch ∈ p, ch ∉ S) (hs : ∀ c ∈ s, c ∈ S) : ¬ p <:+: s :=
  noTok_of_disjoint hp (fun ch hch hmem => hdisj ch hch (hs ch hmem))

theorem noUndef_natString (n : Nat) : noUndef (toString n) :=
  noTok_of_subset digitChars (by decide) (by decide) (natToString_digits n)

theorem noUndef_formatCount_some (n : Nat) : noUndef (formatCount (some n)) := by
  unfold noUndef
  rw [show formatCount (some n)
      = if n ≥ 1000 then jsToFixed1of1000 n ++ "k" else toString n from rfl]
  by_cases h : n ≥ 1000
  · rw [if_pos h]
    apply noTok_of_subset ("0123456789.k".data) (by decide) (by decide)
    intro c hc
    have hsub : ∀ c ∈ digitChars, c ∈ ("0123456789.k".data) := by decide
    simp only [jsToFixed1of1000, String.data_append, List.mem_append] at hc
    rcases hc with ((h1 | h1) | h1) | h1
    · exact hsub c (natToString_digits _ c h1)
    · have hc' : c = '.' := by simpa using h1
      rw [hc']; decide
    · exact hsub c (natToString_digits _ c h1)
    · have hc' : c = 'k' := by simpa using h1
      rw [hc']; decide
  · rw [if_neg h]
    exact noUndef_natString n

set_option maxRecDepth 8192 in
theorem noUndef_avatarImageSvg {org uri : String} (h1 : noUndef org)
    (h2 : noUndef uri) : noUndef (avatarImageSvg org uri) := by
  unfold avatarImageSvg
  by_cases h : uri = ""
  · rw [if_neg (by simp [h])]
    exact (by decide : ¬ undTok <:+: ("" : String).data)
  · rw [if_pos h]
    have hchain : (avL0 ++ org ++ avL1 ++ uri ++ avL2 ++ org ++ avL3).data =
        chainData avL0.data
          [(org.data, avL1.data), (uri.data, avL2.data), (org.data, avL3.data)] := by
      simp only [chainData, String.data_append, List.append_assoc]
    unfold noUndef
    rw [hchain]
    refine noTok_chain undTok _ avL0.data (by decide) (by decide) ?_ ?_
    · intro q hq
      simp only [List.mem_cons, List.not_mem_nil, or_false] at hq
      rcases hq with rfl | rfl | rfl
      · exact h1
      · exact h2
      · exact h1
    · intro q hq
      simp only [List.mem_cons, List.not_mem_nil, or_false] at hq
      rcases hq with rfl | rfl | rfl <;> refine ⟨?_, ?_, ?_⟩ <;> (dsimp only; decide)

set_option maxRecDepth 8192 in
theorem noUndef_langElementSvg {language uri color : String}
    (hlang : noUndef (escapeXml language)) (huri : noUndef uri)
    (hcolor : noUndef color) : noUndef (langElementSvg language uri color) := by
  unfold langElementSvg
  by_cases h1 : uri ≠ "" ∧ language ≠ ""
  · rw [if_pos h1]
    have hchain : (liL0 ++ uri ++ liL1 ++ escapeXml language ++ liL2).data =
        chainData liL0.data
          [(uri.data, liL1.data), ((escapeXml language).data, liL2.data)] := by
      simp only [chainData, String.data_append, List.append_assoc]
    unfold noUndef
    rw [hchain]
    refine noTok_chain undTok _ liL0.data (by decide) (by decide) ?_ ?_
    · intro q hq
      simp only [List.mem_cons, List.not_mem_nil, or_false] at hq
      rcases hq with rfl | rfl
      · exact huri
      · exact hlang
    · intro q hq
      simp only [List.mem_cons, List.not_mem_nil, or_false] at hq
      rcases hq with rfl | rfl <;> refine ⟨?_, ?_, ?_⟩ <;> (dsimp only; decide)
  · rw [if_neg h1]
    by_cases h2 : language ≠ ""
    · rw [if_pos h2]
      have hchain : (ldL0 ++ color ++ ldL1 ++ escapeXml language ++ ldL2).data =
          chainData ldL0.data
            [(color.data, ldL1.data), ((escapeXml language).data, ldL2.data)] := by
        simp only [chainData, String.data_append, List.append_assoc]
      unfold noUndef
      rw [hchain]
      refine noTok_chain undTok _ ldL0.data (by decide) (by decide) ?_ ?_
      · intro q hq
        simp only [List.mem_cons, List.not_mem_nil, or_false] at hq
        rcases hq with rfl | rfl
        · exact hcolor
        · exact hlang
      · intro q hq
        simp only [List.mem_cons, List.not_mem_nil, or_false] at hq
        rcases hq with rfl | rfl <;> refine ⟨?_, ?_, ?_⟩ <;> (dsimp only; decide)
    · rw [if_neg h2]
      exact (by decide : ¬ undTok <:+: ("" : String).data)

/-- The rendered card as an alternating literal/value chain: each
interpolated value sits between template literals that begin and end
with punctuation. -/
theorem renderOrgCard_chainData (data : OrgPRData) (options : RenderOptions)
    (cm : List (String × String)) (f : String → Option String) :
    (renderOrgCard data options cm f).data =
      chainData svgL0.data
        [ (data.org.data, svgL1.data)
        , (data.org.data, svgL2.data)
        , ((escapeXml data.orgDisplayName).data, svgL3.data)
        , ((resolveColors options).titleColor.data, svgL4.data)
        , ((resolveColors options).textColor.data, svgL5.data)
        , ((resolveColors options).textColor.data, (svgL6 ++ "rx=\"").data)
        , ((jsOr options.border_radius "4.5").data, ("\"" ++ svgL7).data)
        , ((resolveColors options).bgColor.data, svgL8.data)
        , ((resolveColors options).borderColor.data, (svgL9 ++ "stroke-opacity=\"").data)
        , ((if (options.hide_border == some "true") = true
            then ("0" : String) else "1").data, ("\"" ++ svgL10).data)
        , ((avatarImageSvg data.org ((f (data.avatarUrl ++ "?s=120")).getD "")).data,
            svgL11.data)
        , ((escapeXml data.orgDisplayName).data, svgL12.data)
        , ((langElementSvg data.language (langIconUriOf data.language f)
              (languageColor data.language cm)).data,
            (svgL13 ++ starIconSvg ++ svgL14 ++ ">").data)
        , ((formatCount data.stars).data,
            ("</text>" ++ svgL15 ++ mergedIconSvg ++ svgL16 ++ ">").data)
        , ((toString data.mergedPRs).data, (" merged</text>" ++ svgL17).data) ] := by
  simp only [renderOrgCard, svgTemplate, chainData, String.data_append, List.append_assoc]

set_option maxRecDepth 16384 in
/-- No interpolated value carries the text `undefined` and the star count
is defined: then neither does the rendered card. -/
theorem renderOrgCard_noUndef (data : OrgPRData) (options : RenderOptions)
    (cm : List (String × String)) (f : String → Option String) (n : Nat)
    (hstars : data.stars = some n)
    (horg : noUndef data.org)
    (hname : noUndef (escapeXml data.orgDisplayName))
    (htc : noUndef (resolveColors options).titleColor)
    (hxc : noUndef (resolveColors options).textColor)
    (hbg : noUndef (resolveColors options).bgColor)
    (hbc : noUndef (resolveColors options).borderColor)
    (hbr : noUndef (jsOr options.border_radius "4.5"))
    (hav : noUndef ((f (data.avatarUrl ++ "?s=120")).getD ""))
    (hicon : noUndef (langIconUriOf data.language f))
    (hlang : noUndef (escapeXml data.language))
    (hcolor : noUndef (languageColor data.language cm)) :
    noUndef (renderOrgCard data options cm f) := by
  unfold noUndef
  rw [renderOrgCard_chainData]
  refine noTok_chain undTok _ svgL0.data (by decide) (by decide) ?_ ?_
  · intro q hq
    simp only [List.mem_cons, List.not_mem_nil, or_false] at hq
    rcases hq with rfl | rfl | rfl | rfl | rfl | rfl | rfl | rfl | rfl | rfl | rfl |
      rfl | rfl | rfl | rfl
    · exact horg
    · exact horg
    · exact hname
    · exact htc
    · exact hxc
    · exact hxc
    · exact hbr
    · exact hbg
    · exact hbc
    · show ¬ undTok <:+:
        (if (options.hide_border == some "true") = true
          then ("0" : String) else "1").data
      by_cases hb : (options.hide_border == some "true") = true
      · rw [if_pos hb]; decide
      · rw [if_neg hb]; decide
    · exact noUndef_avatarImageSvg horg hav
    · exact hname
    · exact noUndef_langElementSvg hlang hicon hcolor
    · show ¬ undTok <:+: (formatCount data.stars).data
      rw [hstars]
      exact noUndef_formatCount_some n
    · exact noUndef_natString data.mergedPRs
  · intro q hq
    simp only [List.mem_cons, List.not_mem_nil, or_false] at hq
    rcases hq with rfl | rfl | rfl | rfl | rfl | rfl | rfl | rfl | rfl | rfl | rfl |
      rfl | rfl | rfl | rfl <;> refine ⟨?_, ?_, ?_⟩ <;> (dsimp only; decide)

/-- Counterexample to C4 as stated: with an undefined star count the
renderer interpolates `String(undefined)`, so the output does contain
the literal text `undefined` (between the star icon and `</text>`). -/
theorem C4_undefined_stars_counterexample :
    dataC4.stars = none ∧
    strContains (renderOrgCard dataC4 {} [] fetchNone) "undefined" := by
  refine ⟨rfl, ?_⟩
  unfold strContains
  rw [renderOrgCard_decomp]
  apply strInfix_extend_left
  unfold svgAfterLang
  apply strInfix_extend_right
  apply strInfix_extend_right
  apply strInfix_extend_right
  apply strInfix_extend_right
  apply strInfix_extend_right
  apply strInfix_extend_left
  decide

/-- **C4** (amended): `renderOrgCard` is total (a plain function of its
inputs); its output starts with `<svg` and ends with `</svg>`; a star
count of 65000 renders as `65.0k` and 500 as `500` (below 1000 the plain
integer, from 1000 on one decimal of thousands, half-up at the exact
representable midpoints, plus `k`); `stroke-opacity="0"` appears exactly
when `hide_border` is the string `"true"` and `stroke-opacity="1"`
otherwise, and the corner radius attribute is `rx="border_radius"` with
default `4.5`. The output is free of the literal text `undefined` only
when the star count is defined and no interpolated value carries that
text; an undefined star count puts `undefined` in the card (see the
counterexample). -/
theorem C4_renderer_output_rules (data : OrgPRData) (options : RenderOptions)
    (cm : List (String × String)) (f : String → Option String) :
    ("<svg".data <+: (renderOrgCard data options cm f).data ∧
      "</svg>".data <:+ (renderOrgCard data options cm f).data) ∧
    (formatCount (some 65000) = "65.0k" ∧ formatCount (some 500) = "500" ∧
      (∀ n : Nat, n < 1000 → formatCount (some n) = toString n) ∧
      (∀ n : Nat, 1000 ≤ n →
        formatCount (some n) =
          toString ((n + 50) / 1000) ++ "." ++ toString ((n + 50) / 100 % 10) ++ "k") ∧
      formatCount none = "undefined") ∧
    (options.hide_border = some "true" →
      strContains (renderOrgCard data options cm f) "stroke-opacity=\"0\"") ∧
    (options.hide_border ≠ some "true" →
      strContains (renderOrgCard data options cm f) "stroke-opacity=\"1\"") ∧
    strContains (renderOrgCard data options cm f)
      ("rx=\"" ++ jsOr options.border_radius "4.5" ++ "\"") ∧
    strContains (renderOrgCard data options cm f)
      (">" ++ formatCount data.stars ++ "</text>") ∧
    (∀ n : Nat, data.stars = some n →
      noUndef data.org → noUndef (escapeXml data.orgDisplayName) →
      noUndef (resolveColors options).titleColor →
      noUndef (resolveColors options).textColor →
      noUndef (resolveColors options).bgColor →
      noUndef (resolveColors options).borderColor →
      noUndef (jsOr options.border_radius "4.5") →
      noUndef ((f (data.avatarUrl ++ "?s=120")).getD "") →
      noUndef (langIconUriOf data.language f) →
      noUndef (escapeXml data.language) →
      noUndef (languageColor data.language cm) →
      noUndef (renderOrgCard data options cm f)) := by
  refine ⟨⟨?_, ?_⟩, ⟨by decide, by decide, ?_, ?_, rfl⟩, ?_, ?_, ?_, ?_, ?_⟩
  · rw [renderOrgCard_decomp]
    unfold svgBeforeAvatar
    repeat apply strPrefix_extend
    decide
  · rw [renderOrgCard_decomp]
    unfold svgAfterLang
    repeat apply strSuffix_extend
    decide
  · intro n hn
    rw [show formatCount (some n)
        = if n ≥ 1000 then jsToFixed1of1000 n ++ "k" else toString n from rfl,
      if_neg (by omega)]
  · intro n hn
    rw [show formatCount (some n)
        = if n ≥ 1000 then jsToFixed1of1000 n ++ "k" else toString n from rfl,
      if_pos hn]
    simp only [jsToFixed1of1000]
    rw [Nat.div_div_eq_div_mul]
  · intro hb
    unfold strContains
    rw [renderOrgCard_decomp]
    apply strInfix_extend_right
    apply strInfix_extend_right
    apply strInfix_extend_right
    apply strInfix_extend_right
    unfold svgBeforeAvatar
    apply strInfix_extend_right
    apply strInfix_extend_left
    have hbb : (options.hide_border == some "true") = true := by rw [hb]; rfl
    rw [hbb]
    decide
  · intro hb
    unfold strContains
    rw [renderOrgCard_decomp]
    apply strInfix_extend_right
    apply strInfix_extend_right
    apply strInfix_extend_right
    apply strInfix_extend_right
    unfold svgBeforeAvatar
    apply strInfix_extend_right
    apply strInfix_extend_left
    have hbb : (options.hide_border == some "true") = false :=
      beq_eq_false_iff_ne.mpr hb
    rw [hbb]
    decide
  · unfold strContains
    rw [renderOrgCard_decomp]
    apply strInfix_extend_right
    apply strInfix_extend_right
    apply strInfix_extend_right
    apply strInfix_extend_right
    unfold svgBeforeAvatar
    apply strInfix_extend_right
    apply strInfix_extend_right
    apply strInfix_extend_right
    apply strInfix_extend_right
    apply strInfix_extend_right
    apply strInfix_extend_right
    apply strInfix_extend_right
    apply strInfix_extend_left
    exact List.infix_rfl
  · unfold strContains
    rw [renderOrgCard_decomp]
    apply strInfix_extend_left
    unfold svgAfterLang
    apply strInfix_extend_right
    apply strInfix_extend_right
    apply strInfix_extend_right
    apply strInfix_extend_right
    apply strInfix_extend_right
    apply strInfix_extend_left
    exact List.infix_rfl
  · intro n hstars horg hname htc hxc hbg hbc hbr hav hicon hlang hcolor
    exact renderOrgCard_noUndef data options cm f n hstars horg hname htc hxc
      hbg hbc hbr hav hicon hlang hcolor

/-- Witness for C4 at a concrete render: hidden border and a defined
star count, with every interpolated value free of `undefined`. -/
theorem C4_renderer_output_rules_witness :
    strContains (renderOrgCard dataC7 { hide_border := some "true" } [] fetchNone)
      "stroke-opacity=\"0\"" ∧
    noUndef (renderOrgCard dataC7 { hide_border := some "true" } [] fetchNone) := by
  have h := C4_renderer_output_rules dataC7 { hide_border := some "true" } [] fetchNone
  refine ⟨h.2.2.1 rfl, h.2.2.2.2.2.2 65000 rfl ?_ ?_ ?_ ?_ ?_ ?_ ?_ ?_ ?_ ?_ ?_⟩
  · decide
  · decide
  · decide
  · decide
  · decide
  · decide
  · decide
  · decide
  · decide
  · decide
  · decide

/-- **C7**: asset-fetch failures stay local to the renderer. The card is
always the five-part concatenation below, whose outer parts never depend
on a fetch result; a failed avatar fetch makes the avatar element the
empty string (omitted, no placeholder); with an icon URL and a
successful non-empty fetch the language element is the icon image plus
the escaped label; with an icon URL and a failed fetch it is the
coloured dot (the table colour, grey `#586069` when the language is
absent from the table) plus the escaped label; with an empty language it
is omitted entirely. -/
theorem C7_asset_failure_handling (data : OrgPRData) (options : RenderOptions)
    (cm : List (String × String)) (f : String → Option String) :
    (renderOrgCard data options cm f =
      svgBeforeAvatar data.org data.orgDisplayName (resolveColors options).titleColor
        (resolveColors options).textColor (resolveColors options).bgColor
        (resolveColors options).borderColor (jsOr options.border_radius "4.5")
        (options.hide_border == some "true") ++
      avatarImageSvg data.org ((f (data.avatarUrl ++ "?s=120")).getD "") ++
      svgBetweenAvatarLang data.orgDisplayName ++
      langElementSvg data.language (langIconUriOf data.language f)
        (languageColor data.language cm) ++
      svgAfterLang data.stars data.mergedPRs) ∧
    (f (data.avatarUrl ++ "?s=120") = none →
      avatarImageSvg data.org ((f (data.avatarUrl ++ "?s=120")).getD "") = "") ∧
    (∀ url uri, languageIconUrl data.language = some url → f url = some uri →
      uri ≠ "" → data.language ≠ "" →
      langElementSvg data.language (langIconUriOf data.language f)
        (languageColor data.language cm) =
        liL0 ++ uri ++ liL1 ++ escapeXml data.language ++ liL2) ∧
    (∀ url, languageIconUrl data.language = some url → f url = none →
      data.language ≠ "" →
      langElementSvg data.language (langIconUriOf data.language f)
        (languageColor data.language cm) =
        ldL0 ++ languageColor data.language cm ++ ldL1 ++
          escapeXml data.language ++ ldL2) ∧
    (data.language = "" →
      langElementSvg data.language (langIconUriOf data.language f)
        (languageColor data.language cm) = "") ∧
    (cm.lookup data.language = none → languageColor data.language cm = "#586069") := by
  refine ⟨renderOrgCard_decomp data options cm f, ?_, ?_, ?_, ?_, ?_⟩
  · intro h
    rw [h]
    simp [avatarImageSvg]
  · intro url uri hurl hf huri hlang
    have hval : langIconUriOf data.language f = uri := by
      unfold langIconUriOf
      rw [hurl]
      show (f url).getD "" = uri
      rw [hf]
      rfl
    rw [hval]
    unfold langElementSvg
    rw [if_pos ⟨huri, hlang⟩]
  · intro url hurl hf hlang
    have hval : langIconUriOf data.language f = "" := by
      unfold langIconUriOf
      rw [hurl]
      show (f url).getD "" = ""
      rw [hf]
      rfl
    rw [hval]
    unfold langElementSvg
    rw [if_neg (by simp), if_pos hlang]
  · intro h
    simp [langElementSvg, h]
  · intro h
    unfold languageColor
    rw [h]

/-- Witness for C7: with every fetch failing, the avatar element of the
`dataC7` card is empty and the language element falls back to the grey
dot plus the `Python` label. -/
theorem C7_asset_failure_handling_witness :
    avatarImageSvg dataC7.org ((fetchNone (dataC7.avatarUrl ++ "?s=120")).getD "") = "" ∧
    langElementSvg dataC7.language (langIconUriOf dataC7.language fetchNone)
      (languageColor dataC7.language []) =
      ldL0 ++ languageColor dataC7.language [] ++ ldL1 ++
        escapeXml dataC7.language ++ ldL2 ∧
    languageColor dataC7.language [] = "#586069" := by
  have h := C7_asset_failure_handling dataC7 {} [] fetchNone
  exact ⟨h.2.1 rfl,
    h.2.2.2.1 "https://cdn.jsdelivr.net/gh/devicons/devicon@latest/icons/python/python-original.svg"
      rfl rfl (by decide),
    h.2.2.2.2.2 rfl⟩

end Prs
